import Mathlib

/-!
Shallow embedding of the `ChangeNotifier` publish/subscribe state container.

The repository contains two variants of the container:
* the sliced variant (`src/src/state.ts`): registry keyed by event name and
  slice name, with `notify`, `listen`, `unsubscribe`, `getState`;
* the flat variant (`src/unnamed/part_000`): registry keyed by event name
  only, with `notify`, `listen` (which replays the current state to
  subscribers), `unsubscribe`, and no `getState`.

JavaScript runtime values are modelled by the inductive `Value`; listener
functions are modelled by identifiers (`Nat`), and an operation that in the
source invokes callbacks instead returns the list of invocations
(callback identifier paired with the argument it was called with).
JavaScript objects are modelled as association lists of fields in insertion
order; the mutable `Record` maps of the source become association lists with
`lookupKey` (property read) and `setKey` (property assignment: overwrite in
place when the key exists, append otherwise).
-/

namespace TestState

/-- Model of a JavaScript runtime value as passed to `notify` and stored in
`notifierState`: null, undefined, booleans, numbers, strings, arrays and
plain objects (records given as a field list in insertion order). -/
inductive Value : Type where
  | vnull : Value
  | vundef : Value
  | bool : Bool → Value
  | num : Int → Value
  | str : String → Value
  | arr : List Value → Value
  | record : List (String × Value) → Value
deriving Repr

/-- `checkValidObject` from both sources: true exactly for a non-null,
non-array plain object (constructor `Object`). -/
def checkValidObject : Value → Bool
  | Value.record _ => true
  | _ => false

/-- JavaScript truthiness, used by the `x || y` defaulting in `notify`
(`this.notifierState[...] || ...`): null, undefined, `false`, `0` and the
empty string are falsy; objects and arrays are always truthy. -/
def truthy : Value → Bool
  | Value.vnull => false
  | Value.vundef => false
  | Value.bool b => b
  | Value.num n => decide (n ≠ 0)
  | Value.str s => decide (s ≠ "")
  | Value.arr _ => true
  | Value.record _ => true

/-- Property read `m[k]` on a JavaScript object modelled as an association
list: the value at the first matching key, if any. -/
def lookupKey {β : Type} (m : List (String × β)) (k : String) : Option β :=
  match m with
  | [] => none
  | (k₁, v₁) :: rest => if k₁ = k then some v₁ else lookupKey rest k

/-- Property assignment `m[k] = v` on a JavaScript object: overwrite the
(first) existing entry in place when the key is present, append otherwise. -/
def setKey {β : Type} (m : List (String × β)) (k : String) (v : β) :
    List (String × β) :=
  match m with
  | [] => [(k, v)]
  | (k₁, v₁) :: rest => if k₁ = k then (k, v) :: rest else (k₁, v₁) :: setKey rest k v

/-- The own enumerable properties contributed by spreading a value into an
object literal: a record contributes its fields, an array its index-keyed
elements, a string its index-keyed characters, and primitives nothing. -/
def spreadFields : Value → List (String × Value)
  | Value.record fs => fs
  | Value.arr xs => (xs.enum.map fun p => (toString p.1, p.2))
  | Value.str s => (s.toList.enum.map fun p => (toString p.1, Value.str (String.singleton p.2)))
  | _ => []

/-- Building an object literal from a sequence of property assignments in
order (the semantics of a spread-built literal): later occurrences of a key
overwrite the earlier value in place. -/
def objectFrom (fs : List (String × Value)) : List (String × Value) :=
  fs.foldl (fun m kv => setKey m kv.1 kv.2) []

/-- Lines 95-97 of the sliced source (87-89 of the flat source): the value
stored and fanned out by `notify`. For a plain-record payload it is the
spread-merge of the prior stored value (defaulted to an empty object when
absent or falsy, by `prior || ...`) with the payload; any other payload
replaces the prior value wholesale. -/
def computeStateData (prior : Option Value) (data : Value) : Value :=
  if checkValidObject data then
    let base : Value :=
      match prior with
      | some p => if truthy p then p else Value.record []
      | none => Value.record []
    Value.record (objectFrom (spreadFields base ++ spreadFields data))
  else data

/-- The `callback` argument of `listen`/`unsubscribe` as received at runtime:
either an actual function (identified by a `Nat`) or some non-function
value. -/
inductive CallbackArg : Type where
  | func : Nat → CallbackArg
  | value : Value → CallbackArg
deriving Repr

/-- `checkValidFunction` from both sources: true exactly for functions. -/
def checkValidFunction : CallbackArg → Bool
  | CallbackArg.func _ => true
  | CallbackArg.value _ => false

/-- The distinct `throw new Error(...)` sites of the sources, identified by
their message templates. -/
inductive NotifierError : Type where
  | invalidEventName : String → NotifierError
  | invalidParameters : String → NotifierError
  | noListenersFound : String → NotifierError
deriving Repr, DecidableEq

/-- `validateEvent` from both sources: the event name must be a non-empty
string (in the embedding the argument is always a string, so only emptiness
is checked). -/
def validateEvent (eventName : String) : Bool :=
  eventName ≠ ""

/-- JavaScript `Set.prototype.add` on a set modelled as a duplicate-free
list in insertion order: append when absent, no-op when present. -/
def addCb (s : List Nat) (c : Nat) : List Nat :=
  if c ∈ s then s else s ++ [c]

/-- JavaScript `Set.prototype.delete` with a possibly non-function argument:
removes the matching function identifier if present; a non-function argument
matches nothing. -/
def deleteCb (s : List Nat) (callback : CallbackArg) : List Nat :=
  match callback with
  | CallbackArg.func i => s.filter fun c => c ≠ i
  | CallbackArg.value _ => s

/-- Nested read `m[ev][sl]` guarded by an existence check on `m[ev]`. -/
def lookupKey2 {β : Type} (m : List (String × List (String × β))) (ev sl : String) :
    Option β :=
  (lookupKey m ev).bind (fun inner => lookupKey inner sl)

/-- Nested assignment `m[ev][sl] = v`; in the source this is only executed
when `m[ev]` already exists (the default empty map covers the unreachable
missing case). -/
def setKey2 {β : Type} (m : List (String × List (String × β))) (ev sl : String) (v : β) :
    List (String × List (String × β)) :=
  setKey m ev (setKey ((lookupKey m ev).getD []) sl v)

/-- The sliced registry (`src/src/state.ts`): per event name, a map from
slice name to the callback set, and in parallel a map from slice name to the
current state value. -/
structure SlicedNotifier : Type where
  listeners : List (String × List (String × List Nat))
  notifierState : List (String × List (String × Value))
deriving Repr

/-- The initial registry of the lazily created singleton: both maps empty. -/
def SlicedNotifier.empty : SlicedNotifier := ⟨[], []⟩

/-- `notify` of the sliced source (lines 77-105). Returns the updated
registry and the list of callback invocations performed; the two
no-listener warning paths return with no invocation and no mutation, and an
invalid event name throws. -/
def SlicedNotifier.notify (n : SlicedNotifier) (eventName : String) (data : Value)
    (sliceName : String) : Except NotifierError (SlicedNotifier × List (Nat × Value)) :=
  if ¬ validateEvent eventName then
    Except.error (NotifierError.invalidEventName eventName)
  else
    match lookupKey n.listeners eventName with
    | none => Except.ok (n, [])
    | some evListeners =>
      match lookupKey evListeners sliceName with
      | none => Except.ok (n, [])
      | some sliceListeners =>
        let prior := lookupKey ((lookupKey n.notifierState eventName).getD []) sliceName
        let stateData := computeStateData prior data
        Except.ok
          ({ n with notifierState := setKey2 n.notifierState eventName sliceName stateData },
           sliceListeners.map fun cb => (cb, stateData))

/-- Lines 126-129 of the sliced `listen`: when either per-event map is
missing, both are (re)set to empty maps together. -/
def listenStage1 (n : SlicedNotifier) (eventName : String) : SlicedNotifier :=
  if (lookupKey n.listeners eventName).isNone
      || (lookupKey n.notifierState eventName).isNone then
    { listeners := setKey n.listeners eventName [],
      notifierState := setKey n.notifierState eventName [] }
  else n

/-- Lines 131-134 of the sliced `listen`: when the slice has no callback
set yet, create the empty set and seed the slice's state with
`initialState`, together. -/
def listenStage2 (n : SlicedNotifier) (eventName sliceName : String) (initialState : Value) :
    SlicedNotifier :=
  if (lookupKey2 n.listeners eventName sliceName).isNone then
    { listeners := setKey2 n.listeners eventName sliceName [],
      notifierState := setKey2 n.notifierState eventName sliceName initialState }
  else n

/-- Lines 126-136 of the sliced `listen` (after validation): run the two
initialization stages, then `Set.add` the callback to the slice's set. -/
def listenBody (n : SlicedNotifier) (eventName : String) (cbId : Nat)
    (initialState : Value) (sliceName : String) : SlicedNotifier :=
  let n₂ := listenStage2 (listenStage1 n eventName) eventName sliceName initialState
  { n₂ with listeners :=
      (setKey2 n₂.listeners eventName sliceName
        (addCb ((lookupKey2 n₂.listeners eventName sliceName).getD []) cbId)) }

/-- `listen` of the sliced source (lines 116-137): validate, create the
per-event maps together when either is missing, create the slice's empty
callback set and its state entry (seeded with `initialState`) together when
the slice is new, then add the callback to the set. The sliced `listen`
never invokes any callback, so its invocation list is always empty. -/
def SlicedNotifier.listen (n : SlicedNotifier) (eventName : String) (callback : CallbackArg)
    (initialState : Value) (sliceName : String) :
    Except NotifierError (SlicedNotifier × List (Nat × Value)) :=
  if ¬ (validateEvent eventName ∧ checkValidFunction callback) then
    Except.error (NotifierError.invalidParameters eventName)
  else
    match callback with
    | CallbackArg.value _ => Except.error (NotifierError.invalidParameters eventName)
    | CallbackArg.func cbId =>
      Except.ok (listenBody n eventName cbId initialState sliceName, [])

/-- `unsubscribe` of the sliced source (lines 147-155): one `throw` covers
both an invalid event name and an event with no listener map; a missing
slice or an absent callback only warns. -/
def SlicedNotifier.unsubscribe (n : SlicedNotifier) (eventName : String)
    (callback : CallbackArg) (sliceName : String) : Except NotifierError SlicedNotifier :=
  if ¬ validateEvent eventName ∨ (lookupKey n.listeners eventName).isNone then
    Except.error (NotifierError.noListenersFound eventName)
  else
    match lookupKey2 n.listeners eventName sliceName with
    | none => Except.ok n
    | some sliceListeners =>
      Except.ok
        { n with listeners :=
            (setKey2 n.listeners eventName sliceName (deleteCb sliceListeners callback)) }

/-- `getState` of the sliced source (lines 163-165): optional-chained pure
lookup. -/
def SlicedNotifier.getState (n : SlicedNotifier) (eventName sliceName : String) :
    Option Value :=
  (lookupKey n.notifierState eventName).bind fun inner => lookupKey inner sliceName

/-- The flat registry (`src/unnamed/part_000`): per event name, the callback
set and, in parallel, the current state value. -/
structure FlatNotifier : Type where
  listeners : List (String × List Nat)
  notifierState : List (String × Value)
deriving Repr

/-- The initial flat registry: both maps empty. -/
def FlatNotifier.empty : FlatNotifier := ⟨[], []⟩

/-- `notify` of the flat source (lines 75-95): validate, warn-and-return
when the event has no callback set, otherwise merge-or-replace the stored
state and invoke every callback with the newly stored value. -/
def FlatNotifier.notify (n : FlatNotifier) (eventName : String) (data : Value) :
    Except NotifierError (FlatNotifier × List (Nat × Value)) :=
  if ¬ validateEvent eventName then
    Except.error (NotifierError.invalidEventName eventName)
  else
    match lookupKey n.listeners eventName with
    | none => Except.ok (n, [])
    | some callbacks =>
      let stateData := computeStateData (lookupKey n.notifierState eventName) data
      Except.ok
        ({ n with notifierState := setKey n.notifierState eventName stateData },
         callbacks.map fun cb => (cb, stateData))

/-- The replay guard of the flat `listen` (lines 124-128):
`state !== null || (checkValidObject(state) && Object.keys(state))`.
`Object.keys(state)` is an array and an array is always truthy in
JavaScript, so the second disjunct contributes exactly
`checkValidObject state`; an absent (`undefined`) state also satisfies
`state !== null`. -/
def isNullState : Option Value → Bool
  | some Value.vnull => true
  | _ => false

/-- The full replay guard of the flat `listen`, see `isNullState`. -/
def flatReplayCond (st : Option Value) : Bool :=
  !(isNullState st) || checkValidObject (st.getD Value.vundef)

/-- Lines 114-121 of the flat `listen` (after validation): on a first
listen for the event create the callback set and seed the state with
`initialState`, then `Set.add` the callback. -/
def FlatNotifier.listenPre (n : FlatNotifier) (eventName : String) (cbId : Nat)
    (initialState : Value) : FlatNotifier :=
  let n₁ : FlatNotifier :=
    if (lookupKey n.listeners eventName).isNone then
      { listeners := setKey n.listeners eventName [],
        notifierState := setKey n.notifierState eventName initialState }
    else n
  { n₁ with listeners :=
      (setKey n₁.listeners eventName
        (addCb ((lookupKey n₁.listeners eventName).getD []) cbId)) }

/-- `listen` of the flat source (lines 105-131): validate, run `listenPre`,
then — whenever the replay guard holds — immediately call `notify` with the
currently stored state. The returned invocation list is the list of
callback calls performed by that inner `notify` (empty when no replay
happens). -/
def FlatNotifier.listen (n : FlatNotifier) (eventName : String) (callback : CallbackArg)
    (initialState : Value) :
    Except NotifierError (FlatNotifier × List (Nat × Value)) :=
  if ¬ (validateEvent eventName ∧ checkValidFunction callback) then
    Except.error (NotifierError.invalidParameters eventName)
  else
    match callback with
    | CallbackArg.value _ => Except.error (NotifierError.invalidParameters eventName)
    | CallbackArg.func cbId =>
      let n₂ := n.listenPre eventName cbId initialState
      let st := lookupKey n₂.notifierState eventName
      if flatReplayCond st then
        n₂.notify eventName (st.getD Value.vundef)
      else
        Except.ok (n₂, [])

/-- `unsubscribe` of the flat source (lines 140-147): one `throw` covers
both an invalid event name and an unregistered event; deleting an absent
callback only warns. -/
def FlatNotifier.unsubscribe (n : FlatNotifier) (eventName : String)
    (callback : CallbackArg) : Except NotifierError FlatNotifier :=
  if ¬ validateEvent eventName ∨ (lookupKey n.listeners eventName).isNone then
    Except.error (NotifierError.noListenersFound eventName)
  else
    Except.ok
      { n with listeners :=
          (setKey n.listeners eventName
            (deleteCb ((lookupKey n.listeners eventName).getD []) callback)) }

/-! ### Lemmas about the association-list map primitives -/

theorem lookupKey_setKey {β : Type} (m : List (String × β)) (k : String) (v : β)
    (k' : String) :
    lookupKey (setKey m k v) k' = if k' = k then some v else lookupKey m k' := by
  induction m with
  | nil =>
    by_cases h : k' = k
    · subst h; simp [setKey, lookupKey]
    · simp only [setKey, lookupKey, if_neg h, if_neg (Ne.symm h)]
  | cons hd tl ih =>
    obtain ⟨k₁, v₁⟩ := hd
    by_cases h₁ : k₁ = k
    · subst h₁
      by_cases h₂ : k' = k₁
      · subst h₂; simp [setKey, lookupKey]
      · simp only [setKey, if_pos rfl, lookupKey, if_neg (Ne.symm h₂), if_neg h₂]
    · by_cases h₂ : k' = k₁
      · subst h₂
        simp [setKey, if_neg h₁, lookupKey, if_neg (Ne.symm h₁)]
      · simp only [setKey, if_neg h₁, lookupKey, if_neg (Ne.symm h₂), ih]

theorem setKey_eq_self {β : Type} {m : List (String × β)} {k : String} {v : β}
    (h : lookupKey m k = some v) : setKey m k v = m := by
  induction m with
  | nil => simp [lookupKey] at h
  | cons hd tl ih =>
    obtain ⟨k₁, v₁⟩ := hd
    simp only [lookupKey] at h
    simp only [setKey]
    by_cases h₁ : k₁ = k
    · subst h₁
      simp only [if_pos rfl] at h ⊢
      cases h; rfl
    · simp only [if_neg h₁] at h ⊢
      rw [ih h]

theorem lookupKey_append {β : Type} (a b : List (String × β)) (k : String) :
    lookupKey (a ++ b) k =
      match lookupKey a k with
      | some v => some v
      | none => lookupKey b k := by
  induction a with
  | nil => simp [lookupKey]
  | cons hd tl ih =>
    obtain ⟨k₁, v₁⟩ := hd
    simp only [List.cons_append, lookupKey]
    by_cases h₁ : k₁ = k
    · simp [h₁]
    · simp [h₁, ih]

theorem lookupKey_eq_none_of_not_mem {β : Type} {m : List (String × β)} {k : String}
    (h : k ∉ m.map Prod.fst) : lookupKey m k = none := by
  induction m with
  | nil => rfl
  | cons hd tl ih =>
    obtain ⟨k₁, v₁⟩ := hd
    simp only [List.map_cons, List.mem_cons] at h
    push_neg at h
    simp only [lookupKey, if_neg (Ne.symm h.1)]
    exact ih h.2

theorem lookupKey_of_mem_nodup {β : Type} {m : List (String × β)} {k : String} {v : β}
    (hnd : (m.map Prod.fst).Nodup) (hm : (k, v) ∈ m) : lookupKey m k = some v := by
  induction m with
  | nil => simp at hm
  | cons hd tl ih =>
    obtain ⟨k₁, v₁⟩ := hd
    simp only [List.map_cons, List.nodup_cons] at hnd
    simp only [List.mem_cons] at hm
    rcases hm with hm | hm
    · cases hm
      simp [lookupKey]
    · have hk : k₁ ≠ k := by
        intro h
        subst h
        exact hnd.1 (List.mem_map_of_mem Prod.fst hm)
      simp only [lookupKey, if_neg hk]
      exact ih hnd.2 hm

theorem lookupKey2_setKey2 {β : Type} (m : List (String × List (String × β)))
    (ev sl : String) (v : β) (ev' sl' : String) :
    lookupKey2 (setKey2 m ev sl v) ev' sl' =
      if ev' = ev ∧ sl' = sl then some v else lookupKey2 m ev' sl' := by
  by_cases hev : ev' = ev
  · subst hev
    by_cases hsl : sl' = sl
    · subst hsl
      simp [lookupKey2, setKey2, lookupKey_setKey]
    · simp only [lookupKey2, setKey2, lookupKey_setKey, if_pos rfl, if_neg hsl, hsl,
        and_false, if_false, Option.some_bind]
      cases h : lookupKey m ev' with
      | none => simp [setKey, lookupKey, Ne.symm hsl]
      | some inner => simp [lookupKey_setKey, hsl]
  · simp only [lookupKey2, setKey2, lookupKey_setKey, if_neg hev, hev, false_and, if_false]

theorem setKey2_eq_self {β : Type} {m : List (String × List (String × β))}
    {ev sl : String} {v : β} (h : lookupKey2 m ev sl = some v) :
    setKey2 m ev sl v = m := by
  rcases hinner : lookupKey m ev with _ | inner
  · simp [lookupKey2, hinner] at h
  · simp only [lookupKey2, hinner, Option.some_bind] at h
    unfold setKey2
    rw [hinner]
    simp only [Option.getD_some]
    rw [setKey_eq_self h, setKey_eq_self hinner]

/-! ### Lemmas about object-literal construction (`objectFrom`) -/

theorem lookupKey_foldl_setKey {β : Type} (fs : List (String × β)) (acc : List (String × β))
    (k : String) :
    lookupKey (fs.foldl (fun m kv => setKey m kv.1 kv.2) acc) k =
      match lookupKey fs.reverse k with
      | some v => some v
      | none => lookupKey acc k := by
  induction fs generalizing acc with
  | nil => simp [lookupKey]
  | cons hd rest ih =>
    obtain ⟨k₁, v₁⟩ := hd
    simp only [List.foldl_cons, List.reverse_cons]
    rw [ih, lookupKey_append]
    cases hr : lookupKey rest.reverse k with
    | some v => rfl
    | none =>
      rw [lookupKey_setKey]
      by_cases hk : k = k₁
      · subst hk; simp [lookupKey]
      · simp [lookupKey, hk, Ne.symm hk]

theorem lookupKey_objectFrom (fs : List (String × Value)) (k : String) :
    lookupKey (objectFrom fs) k = lookupKey fs.reverse k := by
  unfold objectFrom
  rw [lookupKey_foldl_setKey]
  cases lookupKey fs.reverse k <;> rfl

theorem setKey_append_of_none {β : Type} {acc : List (String × β)} {k : String} {v : β}
    (h : lookupKey acc k = none) : setKey acc k v = acc ++ [(k, v)] := by
  induction acc with
  | nil => rfl
  | cons hd tl ih =>
    obtain ⟨k₁, v₁⟩ := hd
    simp only [lookupKey] at h
    by_cases h₁ : k₁ = k
    · simp [h₁] at h
    · simp only [lookupKey, if_neg h₁] at h
      simp [setKey, if_neg h₁, ih h]

theorem foldl_setKey_append {β : Type} {fs : List (String × β)} (acc : List (String × β))
    (hnd : (fs.map Prod.fst).Nodup) (hfresh : ∀ kv ∈ fs, lookupKey acc kv.1 = none) :
    fs.foldl (fun m kv => setKey m kv.1 kv.2) acc = acc ++ fs := by
  induction fs generalizing acc with
  | nil => simp
  | cons hd rest ih =>
    obtain ⟨k₁, v₁⟩ := hd
    simp only [List.map_cons, List.nodup_cons] at hnd
    simp only [List.foldl_cons]
    rw [setKey_append_of_none (hfresh (k₁, v₁) (List.mem_cons_self _ _))]
    have hfresh₂ : ∀ kv ∈ rest, lookupKey (acc ++ [(k₁, v₁)]) kv.1 = none := by
      intro kv hkv
      rw [lookupKey_append, hfresh kv (List.mem_cons_of_mem _ hkv)]
      have hne : k₁ ≠ kv.1 := by
        intro h
        exact hnd.1 (h ▸ List.mem_map_of_mem Prod.fst hkv)
      simp [lookupKey, hne]
    rw [ih (acc ++ [(k₁, v₁)]) hnd.2 hfresh₂]
    simp

theorem objectFrom_eq_self {fs : List (String × Value)}
    (hnd : (fs.map Prod.fst).Nodup) : objectFrom fs = fs := by
  unfold objectFrom
  rw [foldl_setKey_append [] hnd (fun kv _ => rfl)]
  simp

theorem foldl_setKey_eq_self {β : Type} {gs m : List (String × β)}
    (h : ∀ kv ∈ gs, lookupKey m kv.1 = some kv.2) :
    gs.foldl (fun acc kv => setKey acc kv.1 kv.2) m = m := by
  induction gs with
  | nil => rfl
  | cons hd rest ih =>
    obtain ⟨k₁, v₁⟩ := hd
    simp only [List.foldl_cons]
    rw [setKey_eq_self (h (k₁, v₁) (List.mem_cons_self _ _))]
    exact ih fun kv hkv => h kv (List.mem_cons_of_mem _ hkv)

theorem objectFrom_append_self {fs : List (String × Value)}
    (hnd : (fs.map Prod.fst).Nodup) : objectFrom (fs ++ fs) = fs := by
  unfold objectFrom
  rw [List.foldl_append]
  have h₁ : fs.foldl (fun m kv => setKey m kv.1 kv.2) [] = fs := objectFrom_eq_self hnd
  rw [h₁]
  exact foldl_setKey_eq_self fun kv hkv => lookupKey_of_mem_nodup hnd (by simpa using hkv)

/-! ### Operation traces on the sliced registry

`SOp` is one call of the sliced registry's public API; `applyOp` applies it
(a thrown error leaves the registry untouched, since every `throw` in the
source precedes any mutation), and `runOps` replays a trace from the initial
empty singleton. -/

inductive SOp : Type where
  | notify : String → Value → String → SOp
  | listen : String → CallbackArg → Value → String → SOp
  | unsubscribe : String → CallbackArg → String → SOp
  | getState : String → String → SOp

/-- Apply one API call to the sliced registry; an error aborts the call,
leaving the registry as it was. -/
def applyOp (n : SlicedNotifier) : SOp → SlicedNotifier
  | SOp.notify ev d sl =>
    match n.notify ev d sl with
    | Except.ok p => p.1
    | Except.error _ => n
  | SOp.listen ev cb init sl =>
    match n.listen ev cb init sl with
    | Except.ok p => p.1
    | Except.error _ => n
  | SOp.unsubscribe ev cb sl =>
    match n.unsubscribe ev cb sl with
    | Except.ok m => m
    | Except.error _ => n
  | SOp.getState _ _ => n

/-- Replay a trace of API calls from the initial empty registry. -/
def runOps (ops : List SOp) : SlicedNotifier :=
  ops.foldl applyOp SlicedNotifier.empty

/-- The operation is a `listen` for the pair (`ev`, `sl`) that passes
validation (and hence registers the pair). -/
def listenApplied (op : SOp) (ev sl : String) : Bool :=
  match op with
  | SOp.listen e cb _ s =>
    decide (e = ev) && decide (s = sl) && validateEvent e && checkValidFunction cb
  | _ => false

/-- The operation is a `listen` for event `ev` (any slice) that passes
validation. -/
def listenAppliedEvent (op : SOp) (ev : String) : Bool :=
  match op with
  | SOp.listen e cb _ _ => decide (e = ev) && validateEvent e && checkValidFunction cb
  | _ => false

/-- The structural invariant of the sliced registry: the two parallel maps
have entries for exactly the same event names and exactly the same
(event, slice) pairs. -/
def RegInv (n : SlicedNotifier) : Prop :=
  (∀ ev, (lookupKey n.listeners ev).isSome = (lookupKey n.notifierState ev).isSome)
  ∧ (∀ ev sl, (lookupKey2 n.listeners ev sl).isSome = (lookupKey2 n.notifierState ev sl).isSome)

/-- Every callback set stored in the registry is duplicate-free (JavaScript
`Set` semantics). -/
def SetsWF (n : SlicedNotifier) : Prop :=
  ∀ ev sl s, lookupKey2 n.listeners ev sl = some s → s.Nodup

/-! ### Characterization of the sliced operations -/

theorem lookupKey_setKey2_event {β : Type} (m : List (String × List (String × β)))
    (ev sl : String) (v : β) (ev' : String) :
    lookupKey (setKey2 m ev sl v) ev' =
      if ev' = ev then some (setKey ((lookupKey m ev).getD []) sl v) else lookupKey m ev' := by
  unfold setKey2
  rw [lookupKey_setKey]

theorem isSome_lookupKey_setKey2_event {β : Type} (m : List (String × List (String × β)))
    (ev sl : String) (v : β) (ev' : String) :
    (lookupKey (setKey2 m ev sl v) ev').isSome
      = ((lookupKey m ev').isSome || decide (ev' = ev)) := by
  rw [lookupKey_setKey2_event]
  by_cases h : ev' = ev <;> simp [h]

theorem lookupKey_getD_empty {β : Type} (m : List (String × List (String × β)))
    (ev sl : String) :
    lookupKey ((lookupKey m ev).getD []) sl = lookupKey2 m ev sl := by
  cases h : lookupKey m ev <;> simp [lookupKey2, h, lookupKey]

theorem notify_invalid (n : SlicedNotifier) (ev : String) (d : Value) (sl : String)
    (hv : validateEvent ev = false) :
    n.notify ev d sl = Except.error (NotifierError.invalidEventName ev) := by
  unfold SlicedNotifier.notify
  simp [hv]

theorem notify_noop (n : SlicedNotifier) (ev : String) (d : Value) (sl : String)
    (hv : validateEvent ev = true) (hs : lookupKey2 n.listeners ev sl = none) :
    n.notify ev d sl = Except.ok (n, []) := by
  unfold SlicedNotifier.notify
  rcases hL : lookupKey n.listeners ev with _ | evL
  · simp [hv, hL]
  · rw [lookupKey2, hL, Option.some_bind] at hs
    simp [hv, hL, hs]

theorem notify_eq (n : SlicedNotifier) (ev : String) (d : Value) (sl : String) (s : List Nat)
    (hv : validateEvent ev = true) (hs : lookupKey2 n.listeners ev sl = some s) :
    n.notify ev d sl = Except.ok
      ({ n with notifierState :=
          (setKey2 n.notifierState ev sl
            (computeStateData (lookupKey2 n.notifierState ev sl) d)) },
       s.map fun cb => (cb, computeStateData (lookupKey2 n.notifierState ev sl) d)) := by
  unfold SlicedNotifier.notify
  rcases hL : lookupKey n.listeners ev with _ | evL
  · rw [lookupKey2, hL] at hs; simp at hs
  · rw [lookupKey2, hL, Option.some_bind] at hs
    simp [hv, hL, hs, lookupKey_getD_empty]

theorem listen_invalid_event (n : SlicedNotifier) (ev : String) (cb : CallbackArg)
    (init : Value) (sl : String) (hv : validateEvent ev = false) :
    n.listen ev cb init sl = Except.error (NotifierError.invalidParameters ev) := by
  unfold SlicedNotifier.listen
  simp [hv]

theorem listen_invalid_callback (n : SlicedNotifier) (ev : String) (v : Value)
    (init : Value) (sl : String) :
    n.listen ev (CallbackArg.value v) init sl
      = Except.error (NotifierError.invalidParameters ev) := by
  unfold SlicedNotifier.listen
  by_cases hv : validateEvent ev = true <;> simp [hv, checkValidFunction]

theorem listen_ok (n : SlicedNotifier) (ev : String) (c : Nat) (init : Value) (sl : String)
    (hv : validateEvent ev = true) :
    n.listen ev (CallbackArg.func c) init sl
      = Except.ok (listenBody n ev c init sl, []) := by
  unfold SlicedNotifier.listen
  simp [hv, checkValidFunction]

theorem unsubscribe_err (n : SlicedNotifier) (ev : String) (cb : CallbackArg) (sl : String)
    (h : validateEvent ev = false ∨ lookupKey n.listeners ev = none) :
    n.unsubscribe ev cb sl = Except.error (NotifierError.noListenersFound ev) := by
  unfold SlicedNotifier.unsubscribe
  rcases h with h | h <;> simp [h]

theorem unsubscribe_missing_slice (n : SlicedNotifier) (ev : String) (cb : CallbackArg)
    (sl : String) (hv : validateEvent ev = true)
    (hev : (lookupKey n.listeners ev).isSome = true)
    (hs : lookupKey2 n.listeners ev sl = none) :
    n.unsubscribe ev cb sl = Except.ok n := by
  unfold SlicedNotifier.unsubscribe
  simp [hv, Option.isNone_iff_eq_none, hs, ← Option.ne_none_iff_isSome.mp,
    Option.ne_none_iff_isSome.mpr hev]

theorem unsubscribe_eq (n : SlicedNotifier) (ev : String) (cb : CallbackArg) (sl : String)
    (s : List Nat) (hv : validateEvent ev = true)
    (hs : lookupKey2 n.listeners ev sl = some s) :
    n.unsubscribe ev cb sl = Except.ok
      { n with listeners := setKey2 n.listeners ev sl (deleteCb s cb) } := by
  have hev : (lookupKey n.listeners ev).isSome = true := by
    rcases hL : lookupKey n.listeners ev with _ | m
    · rw [lookupKey2, hL] at hs; simp at hs
    · rfl
  unfold SlicedNotifier.unsubscribe
  simp [hv, Option.ne_none_iff_isSome.mpr hev, hs]

theorem listenStage1_listeners (n : SlicedNotifier) (ev ev' : String)
    (hn : (lookupKey n.listeners ev).isSome = (lookupKey n.notifierState ev).isSome) :
    lookupKey (listenStage1 n ev).listeners ev' =
      if ev' = ev then some ((lookupKey n.listeners ev).getD []) else lookupKey n.listeners ev' := by
  unfold listenStage1
  cases hL : lookupKey n.listeners ev with
  | none =>
    have hS : lookupKey n.notifierState ev = none := by
      rcases hS : lookupKey n.notifierState ev with _ | m
      · rfl
      · rw [hL, hS] at hn; simp at hn
    simp [hL, hS, lookupKey_setKey]
  | some m =>
    have hS : (lookupKey n.notifierState ev).isSome = true := by rw [← hn, hL]; rfl
    rcases hSv : lookupKey n.notifierState ev with _ | m₂
    · rw [hSv] at hS; simp at hS
    · simp only [hL, hSv, Option.isNone_some, Bool.or_self, Bool.false_eq_true, if_false,
        Option.getD_some]
      by_cases h : ev' = ev
      · subst h; simp [hL]
      · simp [h]

theorem listenStage1_state (n : SlicedNotifier) (ev ev' : String)
    (hn : (lookupKey n.listeners ev).isSome = (lookupKey n.notifierState ev).isSome) :
    lookupKey (listenStage1 n ev).notifierState ev' =
      if ev' = ev then some ((lookupKey n.notifierState ev).getD [])
      else lookupKey n.notifierState ev' := by
  unfold listenStage1
  cases hL : lookupKey n.listeners ev with
  | none =>
    have hS : lookupKey n.notifierState ev = none := by
      rcases hS : lookupKey n.notifierState ev with _ | m
      · rfl
      · rw [hL, hS] at hn; simp at hn
    simp [hL, hS, lookupKey_setKey]
  | some m =>
    have hS : (lookupKey n.notifierState ev).isSome = true := by rw [← hn, hL]; rfl
    rcases hSv : lookupKey n.notifierState ev with _ | m₂
    · rw [hSv] at hS; simp at hS
    · simp only [hL, hSv, Option.isNone_some, Bool.or_self, Bool.false_eq_true, if_false,
        Option.getD_some]
      by_cases h : ev' = ev
      · subst h; simp [hSv]
      · simp [h]

theorem listenStage1_pair_listeners (n : SlicedNotifier) (ev ev' sl' : String)
    (hn : (lookupKey n.listeners ev).isSome = (lookupKey n.notifierState ev).isSome) :
    lookupKey2 (listenStage1 n ev).listeners ev' sl' = lookupKey2 n.listeners ev' sl' := by
  unfold lookupKey2
  rw [listenStage1_listeners n ev ev' hn]
  by_cases h : ev' = ev
  · subst h
    cases hL : lookupKey n.listeners ev' <;> simp [hL, lookupKey]
  · simp [h]

theorem listenStage1_pair_state (n : SlicedNotifier) (ev ev' sl' : String)
    (hn : (lookupKey n.listeners ev).isSome = (lookupKey n.notifierState ev).isSome) :
    lookupKey2 (listenStage1 n ev).notifierState ev' sl' = lookupKey2 n.notifierState ev' sl' := by
  unfold lookupKey2
  rw [listenStage1_state n ev ev' hn]
  by_cases h : ev' = ev
  · subst h
    cases hL : lookupKey n.notifierState ev' <;> simp [hL, lookupKey]
  · simp [h]

theorem listenStage2_pair_listeners (n : SlicedNotifier) (ev sl : String) (init : Value)
    (ev' sl' : String) :
    lookupKey2 (listenStage2 n ev sl init).listeners ev' sl' =
      if ev' = ev ∧ sl' = sl then some ((lookupKey2 n.listeners ev sl).getD [])
      else lookupKey2 n.listeners ev' sl' := by
  unfold listenStage2
  cases hp : lookupKey2 n.listeners ev sl with
  | none => simp [hp, lookupKey2_setKey2]
  | some s =>
    simp only [hp, Option.isNone_some, Bool.false_eq_true, if_false, Option.getD_some]
    by_cases h : ev' = ev ∧ sl' = sl
    · obtain ⟨h₁, h₂⟩ := h; subst h₁; subst h₂; simp [hp]
    · simp [h]

theorem listenStage2_pair_state (n : SlicedNotifier) (ev sl : String) (init : Value)
    (ev' sl' : String)
    (hp : (lookupKey2 n.listeners ev sl).isSome = (lookupKey2 n.notifierState ev sl).isSome) :
    lookupKey2 (listenStage2 n ev sl init).notifierState ev' sl' =
      if ev' = ev ∧ sl' = sl then some ((lookupKey2 n.notifierState ev sl).getD init)
      else lookupKey2 n.notifierState ev' sl' := by
  unfold listenStage2
  cases hL : lookupKey2 n.listeners ev sl with
  | none =>
    have hS : lookupKey2 n.notifierState ev sl = none := by
      rcases hS : lookupKey2 n.notifierState ev sl with _ | w
      · rfl
      · rw [hL, hS] at hp; simp at hp
    simp [hL, hS, lookupKey2_setKey2]
  | some s =>
    have hS : (lookupKey2 n.notifierState ev sl).isSome = true := by rw [← hp, hL]; rfl
    rcases hSv : lookupKey2 n.notifierState ev sl with _ | w
    · rw [hSv] at hS; simp at hS
    · simp only [hL, Option.isNone_some, Bool.false_eq_true, if_false, Option.getD_some]
      by_cases h : ev' = ev ∧ sl' = sl
      · obtain ⟨h₁, h₂⟩ := h; subst h₁; subst h₂; simp [hSv]
      · simp [h]

theorem listenBody_pair_listeners (n : SlicedNotifier) (ev : String) (c : Nat) (init : Value)
    (sl : String) (ev' sl' : String) (hInv : RegInv n) :
    lookupKey2 (listenBody n ev c init sl).listeners ev' sl' =
      if ev' = ev ∧ sl' = sl then some (addCb ((lookupKey2 n.listeners ev sl).getD []) c)
      else lookupKey2 n.listeners ev' sl' := by
  unfold listenBody
  simp only [lookupKey2_setKey2, listenStage2_pair_listeners,
    listenStage1_pair_listeners n ev _ _ (hInv.1 ev)]
  by_cases h : ev' = ev ∧ sl' = sl
  · simp [h]
  · simp [h]

theorem listenBody_pair_state (n : SlicedNotifier) (ev : String) (c : Nat) (init : Value)
    (sl : String) (ev' sl' : String) (hInv : RegInv n) :
    lookupKey2 (listenBody n ev c init sl).notifierState ev' sl' =
      if ev' = ev ∧ sl' = sl then some ((lookupKey2 n.notifierState ev sl).getD init)
      else lookupKey2 n.notifierState ev' sl' := by
  unfold listenBody
  have hp : (lookupKey2 (listenStage1 n ev).listeners ev sl).isSome
      = (lookupKey2 (listenStage1 n ev).notifierState ev sl).isSome := by
    rw [listenStage1_pair_listeners n ev _ _ (hInv.1 ev),
      listenStage1_pair_state n ev _ _ (hInv.1 ev)]
    exact hInv.2 ev sl
  simp only [listenStage2_pair_state _ _ _ _ _ _ hp,
    listenStage1_pair_state n ev _ _ (hInv.1 ev),
    listenStage1_pair_listeners n ev _ _ (hInv.1 ev)]

theorem event_isSome_of_pair {β : Type} {m : List (String × List (String × β))}
    {ev sl : String} {s : β} (h : lookupKey2 m ev sl = some s) :
    (lookupKey m ev).isSome = true := by
  rcases hL : lookupKey m ev with _ | mm
  · rw [lookupKey2, hL] at h; simp at h
  · rfl

theorem listenStage1_event_isSome_listeners (n : SlicedNotifier) (ev ev' : String)
    (hn : (lookupKey n.listeners ev).isSome = (lookupKey n.notifierState ev).isSome) :
    (lookupKey (listenStage1 n ev).listeners ev').isSome
      = ((lookupKey n.listeners ev').isSome || decide (ev' = ev)) := by
  rw [listenStage1_listeners n ev ev' hn]
  by_cases h : ev' = ev
  · subst h; simp
  · simp [h]

theorem listenStage1_event_isSome_state (n : SlicedNotifier) (ev ev' : String)
    (hn : (lookupKey n.listeners ev).isSome = (lookupKey n.notifierState ev).isSome) :
    (lookupKey (listenStage1 n ev).notifierState ev').isSome
      = ((lookupKey n.notifierState ev').isSome || decide (ev' = ev)) := by
  rw [listenStage1_state n ev ev' hn]
  by_cases h : ev' = ev
  · subst h; simp
  · simp [h]

theorem listenStage2_event_isSome_listeners (n : SlicedNotifier) (ev sl : String)
    (init : Value) (ev' : String) (hev : (lookupKey n.listeners ev).isSome = true) :
    (lookupKey (listenStage2 n ev sl init).listeners ev').isSome
      = (lookupKey n.listeners ev').isSome := by
  unfold listenStage2
  cases hp : lookupKey2 n.listeners ev sl with
  | none =>
    simp only [hp, Option.isNone_none, if_true]
    rw [isSome_lookupKey_setKey2_event]
    by_cases h : ev' = ev
    · subst h; simp [hev]
    · simp [h]
  | some s => simp [hp]

theorem listenStage2_event_isSome_state (n : SlicedNotifier) (ev sl : String)
    (init : Value) (ev' : String) (hev : (lookupKey n.notifierState ev).isSome = true) :
    (lookupKey (listenStage2 n ev sl init).notifierState ev').isSome
      = (lookupKey n.notifierState ev').isSome := by
  unfold listenStage2
  cases hp : lookupKey2 n.listeners ev sl with
  | none =>
    simp only [hp, Option.isNone_none, if_true]
    rw [isSome_lookupKey_setKey2_event]
    by_cases h : ev' = ev
    · subst h; simp [hev]
    · simp [h]
  | some s => simp [hp]

theorem listenBody_event_isSome_listeners (n : SlicedNotifier) (ev : String) (c : Nat)
    (init : Value) (sl : String) (ev' : String) (hInv : RegInv n) :
    (lookupKey (listenBody n ev c init sl).listeners ev').isSome
      = ((lookupKey n.listeners ev').isSome || decide (ev' = ev)) := by
  unfold listenBody
  have hev1 : (lookupKey (listenStage1 n ev).listeners ev).isSome = true := by
    rw [listenStage1_event_isSome_listeners n ev ev (hInv.1 ev)]; simp
  rw [isSome_lookupKey_setKey2_event,
    listenStage2_event_isSome_listeners _ _ _ _ _ hev1,
    listenStage1_event_isSome_listeners n ev ev' (hInv.1 ev)]
  by_cases h : ev' = ev <;> simp [h]

theorem listenBody_event_isSome_state (n : SlicedNotifier) (ev : String) (c : Nat)
    (init : Value) (sl : String) (ev' : String) (hInv : RegInv n) :
    (lookupKey (listenBody n ev c init sl).notifierState ev').isSome
      = ((lookupKey n.notifierState ev').isSome || decide (ev' = ev)) := by
  unfold listenBody
  have hev1 : (lookupKey (listenStage1 n ev).notifierState ev).isSome = true := by
    rw [listenStage1_event_isSome_state n ev ev (hInv.1 ev)]; simp
  show (lookupKey (listenStage2 (listenStage1 n ev) ev sl init).notifierState ev').isSome = _
  rw [listenStage2_event_isSome_state _ _ _ _ _ hev1,
    listenStage1_event_isSome_state n ev ev' (hInv.1 ev)]

theorem regInv_listenBody (n : SlicedNotifier) (ev : String) (c : Nat) (init : Value)
    (sl : String) (hInv : RegInv n) : RegInv (listenBody n ev c init sl) := by
  constructor
  · intro ev'
    rw [listenBody_event_isSome_listeners n ev c init sl ev' hInv,
      listenBody_event_isSome_state n ev c init sl ev' hInv, hInv.1 ev']
  · intro ev' sl'
    rw [listenBody_pair_listeners n ev c init sl ev' sl' hInv,
      listenBody_pair_state n ev c init sl ev' sl' hInv]
    by_cases h : ev' = ev ∧ sl' = sl
    · simp [h]
    · simp [h, hInv.2 ev' sl']

theorem applyOp_notify_listeners (n : SlicedNotifier) (ev : String) (d : Value) (sl : String) :
    (applyOp n (SOp.notify ev d sl)).listeners = n.listeners := by
  simp only [applyOp]
  by_cases hv : validateEvent ev = true
  · cases hs : lookupKey2 n.listeners ev sl with
    | none => rw [notify_noop n ev d sl hv hs]
    | some s => rw [notify_eq n ev d sl s hv hs]
  · rw [notify_invalid n ev d sl (by simpa using hv)]

theorem applyOp_unsubscribe_state (n : SlicedNotifier) (ev : String) (cb : CallbackArg)
    (sl : String) :
    (applyOp n (SOp.unsubscribe ev cb sl)).notifierState = n.notifierState := by
  simp only [applyOp]
  by_cases hv : validateEvent ev = true
  · rcases hL : lookupKey n.listeners ev with _ | m
    · rw [unsubscribe_err n ev cb sl (Or.inr hL)]
    · cases hs : lookupKey2 n.listeners ev sl with
      | none => rw [unsubscribe_missing_slice n ev cb sl hv (by rw [hL]; rfl) hs]
      | some s => rw [unsubscribe_eq n ev cb sl s hv hs]
  · rw [unsubscribe_err n ev cb sl (Or.inl (by simpa using hv))]

theorem applyOp_unsubscribe_pair_isSome (n : SlicedNotifier) (ev₀ : String)
    (cb : CallbackArg) (sl₀ ev sl : String) :
    (lookupKey2 (applyOp n (SOp.unsubscribe ev₀ cb sl₀)).listeners ev sl).isSome
      = (lookupKey2 n.listeners ev sl).isSome := by
  simp only [applyOp]
  by_cases hv : validateEvent ev₀ = true
  · rcases hL : lookupKey n.listeners ev₀ with _ | m
    · rw [unsubscribe_err n ev₀ cb sl₀ (Or.inr hL)]
    · cases hs : lookupKey2 n.listeners ev₀ sl₀ with
      | none => rw [unsubscribe_missing_slice n ev₀ cb sl₀ hv (by rw [hL]; rfl) hs]
      | some s =>
        rw [unsubscribe_eq n ev₀ cb sl₀ s hv hs]
        show (lookupKey2 (setKey2 n.listeners ev₀ sl₀ (deleteCb s cb)) ev sl).isSome = _
        rw [lookupKey2_setKey2]
        by_cases h : ev = ev₀ ∧ sl = sl₀
        · obtain ⟨h₁, h₂⟩ := h; subst h₁; subst h₂; simp [hs]
        · simp [h]
  · rw [unsubscribe_err n ev₀ cb sl₀ (Or.inl (by simpa using hv))]

theorem applyOp_unsubscribe_event_isSome (n : SlicedNotifier) (ev₀ : String)
    (cb : CallbackArg) (sl₀ ev : String) :
    (lookupKey (applyOp n (SOp.unsubscribe ev₀ cb sl₀)).listeners ev).isSome
      = (lookupKey n.listeners ev).isSome := by
  simp only [applyOp]
  by_cases hv : validateEvent ev₀ = true
  · rcases hL : lookupKey n.listeners ev₀ with _ | m
    · rw [unsubscribe_err n ev₀ cb sl₀ (Or.inr hL)]
    · cases hs : lookupKey2 n.listeners ev₀ sl₀ with
      | none => rw [unsubscribe_missing_slice n ev₀ cb sl₀ hv (by rw [hL]; rfl) hs]
      | some s =>
        rw [unsubscribe_eq n ev₀ cb sl₀ s hv hs]
        show (lookupKey (setKey2 n.listeners ev₀ sl₀ (deleteCb s cb)) ev).isSome = _
        rw [isSome_lookupKey_setKey2_event]
        by_cases h : ev = ev₀
        · subst h; simp [hL]
        · simp [h]
  · rw [unsubscribe_err n ev₀ cb sl₀ (Or.inl (by simpa using hv))]

theorem applyOp_notify_state_isSome (n : SlicedNotifier) (ev₀ : String) (d : Value)
    (sl₀ : String) (hInv : RegInv n) :
    (∀ ev, (lookupKey (applyOp n (SOp.notify ev₀ d sl₀)).notifierState ev).isSome
        = (lookupKey n.notifierState ev).isSome)
    ∧ (∀ ev sl, (lookupKey2 (applyOp n (SOp.notify ev₀ d sl₀)).notifierState ev sl).isSome
        = (lookupKey2 n.notifierState ev sl).isSome) := by
  simp only [applyOp]
  by_cases hv : validateEvent ev₀ = true
  · cases hs : lookupKey2 n.listeners ev₀ sl₀ with
    | none => rw [notify_noop n ev₀ d sl₀ hv hs]; exact ⟨fun _ => rfl, fun _ _ => rfl⟩
    | some s =>
      rw [notify_eq n ev₀ d sl₀ s hv hs]
      have hevL : (lookupKey n.listeners ev₀).isSome = true := event_isSome_of_pair hs
      have hevS : (lookupKey n.notifierState ev₀).isSome = true := by rw [← hInv.1]; exact hevL
      have hpS : (lookupKey2 n.notifierState ev₀ sl₀).isSome = true := by
        rw [← hInv.2]; rw [hs]; rfl
      constructor
      · intro ev
        show (lookupKey (setKey2 n.notifierState ev₀ sl₀ _) ev).isSome = _
        rw [isSome_lookupKey_setKey2_event]
        by_cases h : ev = ev₀
        · subst h; simp [hevS]
        · simp [h]
      · intro ev sl
        show (lookupKey2 (setKey2 n.notifierState ev₀ sl₀ _) ev sl).isSome = _
        rw [lookupKey2_setKey2]
        by_cases h : ev = ev₀ ∧ sl = sl₀
        · obtain ⟨h₁, h₂⟩ := h; subst h₁; subst h₂; simp [hpS]
        · simp [h]
  · rw [notify_invalid n ev₀ d sl₀ (by simpa using hv)]
    exact ⟨fun _ => rfl, fun _ _ => rfl⟩

theorem regInv_applyOp (n : SlicedNotifier) (op : SOp) (hInv : RegInv n) :
    RegInv (applyOp n op) := by
  cases op with
  | notify ev d sl =>
    have hL := applyOp_notify_listeners n ev d sl
    have hS := applyOp_notify_state_isSome n ev d sl hInv
    constructor
    · intro ev'; rw [hL, hS.1 ev', hInv.1 ev']
    · intro ev' sl'; rw [hL, hS.2 ev' sl', hInv.2 ev' sl']
  | listen ev cb init sl =>
    cases cb with
    | value v =>
      simp only [applyOp]
      rw [listen_invalid_callback n ev v init sl]
      exact hInv
    | func c =>
      by_cases hv : validateEvent ev = true
      · simp only [applyOp]
        rw [listen_ok n ev c init sl hv]
        exact regInv_listenBody n ev c init sl hInv
      · simp only [applyOp]
        rw [listen_invalid_event n ev _ init sl (by simpa using hv)]
        exact hInv
  | unsubscribe ev cb sl =>
    have hST := applyOp_unsubscribe_state n ev cb sl
    constructor
    · intro ev'
      rw [applyOp_unsubscribe_event_isSome n ev cb sl ev', hST, hInv.1 ev']
    · intro ev' sl'
      rw [applyOp_unsubscribe_pair_isSome n ev cb sl ev' sl', hST, hInv.2 ev' sl']
  | getState a b => exact hInv

theorem applyOp_pair_isSome (n : SlicedNotifier) (op : SOp) (ev sl : String)
    (hInv : RegInv n) :
    (lookupKey2 (applyOp n op).listeners ev sl).isSome
      = ((lookupKey2 n.listeners ev sl).isSome || listenApplied op ev sl) := by
  cases op with
  | notify ev₀ d sl₀ =>
    rw [applyOp_notify_listeners n ev₀ d sl₀]
    simp [listenApplied]
  | listen ev₀ cb init sl₀ =>
    cases cb with
    | value v =>
      simp only [applyOp]
      rw [listen_invalid_callback n ev₀ v init sl₀]
      simp [listenApplied, checkValidFunction]
    | func c =>
      by_cases hv : validateEvent ev₀ = true
      · simp only [applyOp]
        rw [listen_ok n ev₀ c init sl₀ hv]
        show (lookupKey2 (listenBody n ev₀ c init sl₀).listeners ev sl).isSome = _
        rw [listenBody_pair_listeners n ev₀ c init sl₀ ev sl hInv]
        by_cases h : ev = ev₀ ∧ sl = sl₀
        · obtain ⟨h₁, h₂⟩ := h; subst h₁; subst h₂
          simp [listenApplied, hv, checkValidFunction]
        · have : ¬ (ev₀ = ev ∧ sl₀ = sl) := fun hh => h ⟨hh.1.symm, hh.2.symm⟩
          simp only [if_neg h, listenApplied, checkValidFunction, Bool.and_true]
          rcases Decidable.not_and_iff_or_not.mp this with hh | hh <;>
            simp [hh, Bool.or_false]
      · simp only [applyOp]
        rw [listen_invalid_event n ev₀ _ init sl₀ (by simpa using hv)]
        simp [listenApplied, hv]
  | unsubscribe ev₀ cb sl₀ =>
    rw [applyOp_unsubscribe_pair_isSome n ev₀ cb sl₀ ev sl]
    simp [listenApplied]
  | getState a b => simp [applyOp, listenApplied]

theorem applyOp_event_isSome (n : SlicedNotifier) (op : SOp) (ev : String)
    (hInv : RegInv n) :
    (lookupKey (applyOp n op).listeners ev).isSome
      = ((lookupKey n.listeners ev).isSome || listenAppliedEvent op ev) := by
  cases op with
  | notify ev₀ d sl₀ =>
    rw [applyOp_notify_listeners n ev₀ d sl₀]
    simp [listenAppliedEvent]
  | listen ev₀ cb init sl₀ =>
    cases cb with
    | value v =>
      simp only [applyOp]
      rw [listen_invalid_callback n ev₀ v init sl₀]
      simp [listenAppliedEvent, checkValidFunction]
    | func c =>
      by_cases hv : validateEvent ev₀ = true
      · simp only [applyOp]
        rw [listen_ok n ev₀ c init sl₀ hv]
        show (lookupKey (listenBody n ev₀ c init sl₀).listeners ev).isSome = _
        rw [listenBody_event_isSome_listeners n ev₀ c init sl₀ ev hInv]
        by_cases h : ev = ev₀
        · subst h; simp [listenAppliedEvent, hv, checkValidFunction]
        · have : ¬ (ev₀ = ev) := fun hh => h hh.symm
          simp [listenAppliedEvent, h, this]
      · simp only [applyOp]
        rw [listen_invalid_event n ev₀ _ init sl₀ (by simpa using hv)]
        simp [listenAppliedEvent, hv]
  | unsubscribe ev₀ cb sl₀ =>
    rw [applyOp_unsubscribe_event_isSome n ev₀ cb sl₀ ev]
    simp [listenAppliedEvent]
  | getState a b => simp [applyOp, listenAppliedEvent]

theorem regInv_empty : RegInv SlicedNotifier.empty := by
  constructor
  · intro ev; rfl
  · intro ev sl; rfl

theorem foldl_regInv (ops : List SOp) (n : SlicedNotifier) (hInv : RegInv n) :
    RegInv (ops.foldl applyOp n) := by
  induction ops generalizing n with
  | nil => exact hInv
  | cons op rest ih => exact ih (applyOp n op) (regInv_applyOp n op hInv)

theorem runOps_regInv (ops : List SOp) : RegInv (runOps ops) :=
  foldl_regInv ops SlicedNotifier.empty regInv_empty

theorem foldl_pair_isSome (ops : List SOp) (n : SlicedNotifier) (hInv : RegInv n)
    (ev sl : String) :
    (lookupKey2 (ops.foldl applyOp n).listeners ev sl).isSome
      = ((lookupKey2 n.listeners ev sl).isSome || ops.any fun op => listenApplied op ev sl) := by
  induction ops generalizing n with
  | nil => simp
  | cons op rest ih =>
    rw [List.foldl_cons, ih (applyOp n op) (regInv_applyOp n op hInv),
      applyOp_pair_isSome n op ev sl hInv]
    simp [Bool.or_assoc]

theorem runOps_pair_isSome (ops : List SOp) (ev sl : String) :
    (lookupKey2 (runOps ops).listeners ev sl).isSome
      = ops.any fun op => listenApplied op ev sl := by
  have h := foldl_pair_isSome ops SlicedNotifier.empty regInv_empty ev sl
  simpa [SlicedNotifier.empty, lookupKey2, lookupKey] using h

theorem foldl_event_isSome (ops : List SOp) (n : SlicedNotifier) (hInv : RegInv n)
    (ev : String) :
    (lookupKey (ops.foldl applyOp n).listeners ev).isSome
      = ((lookupKey n.listeners ev).isSome || ops.any fun op => listenAppliedEvent op ev) := by
  induction ops generalizing n with
  | nil => simp
  | cons op rest ih =>
    rw [List.foldl_cons, ih (applyOp n op) (regInv_applyOp n op hInv),
      applyOp_event_isSome n op ev hInv]
    simp [Bool.or_assoc]

theorem runOps_event_isSome (ops : List SOp) (ev : String) :
    (lookupKey (runOps ops).listeners ev).isSome
      = ops.any fun op => listenAppliedEvent op ev := by
  have h := foldl_event_isSome ops SlicedNotifier.empty regInv_empty ev
  simpa [SlicedNotifier.empty, lookupKey] using h

theorem addCb_nodup {s : List Nat} {c : Nat} (h : s.Nodup) : (addCb s c).Nodup := by
  unfold addCb
  by_cases hc : c ∈ s
  · simpa [hc] using h
  · rw [if_neg hc]
    exact List.Nodup.append h (List.nodup_singleton c)
      (fun a ha hb => hc ((List.mem_singleton.mp hb) ▸ ha))

theorem setsWF_applyOp (n : SlicedNotifier) (op : SOp) (hWF : SetsWF n)
    (hInv : RegInv n) : SetsWF (applyOp n op) := by
  cases op with
  | notify ev d sl =>
    intro ev' sl' s hs
    rw [applyOp_notify_listeners n ev d sl] at hs
    exact hWF ev' sl' s hs
  | listen ev cb init sl =>
    cases cb with
    | value v =>
      simp only [applyOp]
      rw [listen_invalid_callback n ev v init sl]
      exact hWF
    | func c =>
      by_cases hv : validateEvent ev = true
      · simp only [applyOp]
        rw [listen_ok n ev c init sl hv]
        show SetsWF (listenBody n ev c init sl)
        intro ev' sl' s hs
        rw [listenBody_pair_listeners n ev c init sl ev' sl' hInv] at hs
        by_cases h : ev' = ev ∧ sl' = sl
        · rw [if_pos h] at hs
          cases hs
          apply addCb_nodup
          cases hp : lookupKey2 n.listeners ev sl with
          | none => simp [hp]
          | some s₀ => simpa [hp] using hWF ev sl s₀ hp
        · rw [if_neg h] at hs
          exact hWF ev' sl' s hs
      · simp only [applyOp]
        rw [listen_invalid_event n ev _ init sl (by simpa using hv)]
        exact hWF
  | unsubscribe ev cb sl =>
    intro ev' sl' s hs
    by_cases hv : validateEvent ev = true
    · rcases hL : lookupKey n.listeners ev with _ | m
      · simp only [applyOp] at hs
        rw [unsubscribe_err n ev cb sl (Or.inr hL)] at hs
        exact hWF ev' sl' s hs
      · cases hp : lookupKey2 n.listeners ev sl with
        | none =>
          simp only [applyOp] at hs
          rw [unsubscribe_missing_slice n ev cb sl hv (by rw [hL]; rfl) hp] at hs
          exact hWF ev' sl' s hs
        | some s₀ =>
          simp only [applyOp] at hs
          rw [unsubscribe_eq n ev cb sl s₀ hv hp] at hs
          have hs' : lookupKey2 (setKey2 n.listeners ev sl (deleteCb s₀ cb)) ev' sl'
              = some s := hs
          rw [lookupKey2_setKey2] at hs'
          by_cases h : ev' = ev ∧ sl' = sl
          · rw [if_pos h] at hs'
            cases hs'
            cases cb with
            | func i => exact (hWF ev sl s₀ hp).filter _
            | value v => exact hWF ev sl s₀ hp
          · rw [if_neg h] at hs'
            exact hWF ev' sl' s hs'
    · simp only [applyOp] at hs
      rw [unsubscribe_err n ev cb sl (Or.inl (by simpa using hv))] at hs
      exact hWF ev' sl' s hs
  | getState a b => exact hWF

theorem setsWF_empty : SetsWF SlicedNotifier.empty := by
  intro ev sl s hs
  simp [SlicedNotifier.empty, lookupKey2, lookupKey] at hs

theorem foldl_setsWF (ops : List SOp) (n : SlicedNotifier) (hWF : SetsWF n)
    (hInv : RegInv n) : SetsWF (ops.foldl applyOp n) := by
  induction ops generalizing n with
  | nil => exact hWF
  | cons op rest ih =>
    exact ih (applyOp n op) (setsWF_applyOp n op hWF hInv) (regInv_applyOp n op hInv)

theorem runOps_setsWF (ops : List SOp) : SetsWF (runOps ops) :=
  foldl_setsWF ops SlicedNotifier.empty setsWF_empty regInv_empty

/-! ### Characterization of the flat operations -/

theorem flat_notify_invalid (n : FlatNotifier) (ev : String) (d : Value)
    (hv : validateEvent ev = false) :
    n.notify ev d = Except.error (NotifierError.invalidEventName ev) := by
  unfold FlatNotifier.notify
  simp [hv]

theorem flat_notify_noop (n : FlatNotifier) (ev : String) (d : Value)
    (hv : validateEvent ev = true) (hL : lookupKey n.listeners ev = none) :
    n.notify ev d = Except.ok (n, []) := by
  unfold FlatNotifier.notify
  simp [hv, hL]

theorem flat_notify_eq (n : FlatNotifier) (ev : String) (d : Value) (s : List Nat)
    (hv : validateEvent ev = true) (hL : lookupKey n.listeners ev = some s) :
    n.notify ev d = Except.ok
      ({ n with notifierState :=
          (setKey n.notifierState ev (computeStateData (lookupKey n.notifierState ev) d)) },
       s.map fun cb => (cb, computeStateData (lookupKey n.notifierState ev) d)) := by
  unfold FlatNotifier.notify
  simp [hv, hL]

theorem flat_listen_invalid_event (n : FlatNotifier) (ev : String) (cb : CallbackArg)
    (init : Value) (hv : validateEvent ev = false) :
    n.listen ev cb init = Except.error (NotifierError.invalidParameters ev) := by
  unfold FlatNotifier.listen
  simp [hv]

theorem flat_listen_invalid_callback (n : FlatNotifier) (ev : String) (v : Value)
    (init : Value) :
    n.listen ev (CallbackArg.value v) init
      = Except.error (NotifierError.invalidParameters ev) := by
  unfold FlatNotifier.listen
  by_cases hv : validateEvent ev = true <;> simp [hv, checkValidFunction]

theorem flat_listen_ok (n : FlatNotifier) (ev : String) (c : Nat) (init : Value)
    (hv : validateEvent ev = true) :
    n.listen ev (CallbackArg.func c) init =
      if flatReplayCond (lookupKey (n.listenPre ev c init).notifierState ev) then
        (n.listenPre ev c init).notify ev
          ((lookupKey (n.listenPre ev c init).notifierState ev).getD Value.vundef)
      else Except.ok (n.listenPre ev c init, []) := by
  unfold FlatNotifier.listen
  simp [hv, checkValidFunction]

theorem flat_unsubscribe_err (n : FlatNotifier) (ev : String) (cb : CallbackArg)
    (h : validateEvent ev = false ∨ lookupKey n.listeners ev = none) :
    n.unsubscribe ev cb = Except.error (NotifierError.noListenersFound ev) := by
  unfold FlatNotifier.unsubscribe
  rcases h with h | h <;> simp [h]

theorem flat_unsubscribe_eq (n : FlatNotifier) (ev : String) (cb : CallbackArg)
    (s : List Nat) (hv : validateEvent ev = true) (hL : lookupKey n.listeners ev = some s) :
    n.unsubscribe ev cb = Except.ok
      { n with listeners := setKey n.listeners ev (deleteCb s cb) } := by
  unfold FlatNotifier.unsubscribe
  simp [hv, hL, Option.ne_none_iff_isSome.mpr, lookupKey]

theorem listenPre_listeners (n : FlatNotifier) (ev : String) (c : Nat) (init : Value)
    (ev' : String) :
    lookupKey (n.listenPre ev c init).listeners ev' =
      if ev' = ev then some (addCb ((lookupKey n.listeners ev).getD []) c)
      else lookupKey n.listeners ev' := by
  unfold FlatNotifier.listenPre
  cases hL : lookupKey n.listeners ev with
  | none =>
    simp only [hL, Option.isNone_none, if_true, lookupKey_setKey, if_pos rfl,
      Option.getD_some, Option.getD_none]
    by_cases h : ev' = ev <;> simp [h]
  | some s =>
    simp only [hL, Option.isNone_some, Bool.false_eq_true, if_false, Option.getD_some]
    rw [lookupKey_setKey]

theorem listenPre_state_new (n : FlatNotifier) (ev : String) (c : Nat) (init : Value)
    (hL : lookupKey n.listeners ev = none) :
    (n.listenPre ev c init).notifierState = setKey n.notifierState ev init := by
  unfold FlatNotifier.listenPre
  simp [hL]

theorem listenPre_state_old (n : FlatNotifier) (ev : String) (c : Nat) (init : Value)
    (hL : (lookupKey n.listeners ev).isSome = true) :
    (n.listenPre ev c init).notifierState = n.notifierState := by
  unfold FlatNotifier.listenPre
  rcases h : lookupKey n.listeners ev with _ | s
  · rw [h] at hL; simp at hL
  · simp [h]

theorem listenPre_st (n : FlatNotifier) (ev : String) (c : Nat) (init : Value) :
    lookupKey (n.listenPre ev c init).notifierState ev =
      if (lookupKey n.listeners ev).isNone then some init
      else lookupKey n.notifierState ev := by
  cases hL : lookupKey n.listeners ev with
  | none => rw [listenPre_state_new n ev c init hL]; simp [lookupKey_setKey]
  | some s => rw [listenPre_state_old n ev c init (by rw [hL]; rfl)]; simp

theorem addCb_ne_nil (s : List Nat) (c : Nat) : addCb s c ≠ [] := by
  unfold addCb
  by_cases hc : c ∈ s
  · rw [if_pos hc]
    intro h
    rw [h] at hc
    simp at hc
  · rw [if_neg hc]
    simp

theorem mem_addCb_self (s : List Nat) (c : Nat) : c ∈ addCb s c := by
  unfold addCb
  by_cases hc : c ∈ s
  · simp [hc]
  · simp [hc]

theorem flatReplayCond_eq_false_iff (st : Option Value) :
    flatReplayCond st = false ↔ st = some Value.vnull := by
  cases st with
  | none => simp [flatReplayCond, isNullState, checkValidObject]
  | some v => cases v <;> simp [flatReplayCond, isNullState, checkValidObject]

/-! ### Merge semantics helpers -/

theorem lookupKey_reverse {β : Type} {m : List (String × β)}
    (hnd : (m.map Prod.fst).Nodup) (k : String) :
    lookupKey m.reverse k = lookupKey m k := by
  induction m with
  | nil => rfl
  | cons hd rest ih =>
    obtain ⟨k₁, v₁⟩ := hd
    simp only [List.map_cons, List.nodup_cons] at hnd
    simp only [List.reverse_cons]
    rw [lookupKey_append, ih hnd.2]
    by_cases hk : k₁ = k
    · subst hk
      rw [lookupKey_eq_none_of_not_mem hnd.1]
      simp [lookupKey]
    · simp only [lookupKey, if_neg hk]
      cases hr : lookupKey rest k <;> rfl

theorem lookupKey_merge (ps ds : List (String × Value))
    (hndp : (ps.map Prod.fst).Nodup) (hndd : (ds.map Prod.fst).Nodup) (k : String) :
    lookupKey (objectFrom (ps ++ ds)) k =
      match lookupKey ds k with
      | some w => some w
      | none => lookupKey ps k := by
  rw [lookupKey_objectFrom, List.reverse_append, lookupKey_append,
    lookupKey_reverse hndd, lookupKey_reverse hndp]
  cases lookupKey ds k <;> rfl

/-- Shallow check that a record value has duplicate-free field keys (always
true of values coming from actual JavaScript objects; trivially true of
non-records). -/
def recKeysNodup : Value → Bool
  | Value.record fs => decide (fs.map Prod.fst).Nodup
  | _ => true

theorem computeStateData_self (v : Value) (hnd : recKeysNodup v = true) :
    computeStateData (some v) v = v := by
  cases v with
  | record fs =>
    simp only [recKeysNodup, decide_eq_true_eq] at hnd
    simp only [computeStateData, checkValidObject, if_true, truthy, spreadFields]
    rw [objectFrom_append_self hnd]
  | vnull => rfl
  | vundef => rfl
  | bool b => rfl
  | num m => rfl
  | str s => rfl
  | arr xs => rfl

theorem listenStage1_of_event (n : SlicedNotifier) (ev : String)
    (hL : (lookupKey n.listeners ev).isSome = true)
    (hS : (lookupKey n.notifierState ev).isSome = true) :
    listenStage1 n ev = n := by
  unfold listenStage1
  rcases h₁ : lookupKey n.listeners ev with _ | m₁
  · rw [h₁] at hL; simp at hL
  · rcases h₂ : lookupKey n.notifierState ev with _ | m₂
    · rw [h₂] at hS; simp at hS
    · simp

theorem listenStage2_of_pair (n : SlicedNotifier) (ev sl : String) (init : Value)
    (s : List Nat) (hp : lookupKey2 n.listeners ev sl = some s) :
    listenStage2 n ev sl init = n := by
  unfold listenStage2
  simp [hp]

theorem listenBody_state_of_pair (n : SlicedNotifier) (ev : String) (c : Nat) (init : Value)
    (sl : String) (s : List Nat) (hInv : RegInv n)
    (hp : lookupKey2 n.listeners ev sl = some s) :
    (listenBody n ev c init sl).notifierState = n.notifierState := by
  have hevL : (lookupKey n.listeners ev).isSome = true := event_isSome_of_pair hp
  have hevS : (lookupKey n.notifierState ev).isSome = true := by rw [← hInv.1]; exact hevL
  unfold listenBody
  rw [listenStage1_of_event n ev hevL hevS, listenStage2_of_pair n ev sl init s hp]

theorem listenBody_already (n : SlicedNotifier) (ev : String) (c : Nat) (init : Value)
    (sl : String) (s : List Nat) (hInv : RegInv n)
    (hp : lookupKey2 n.listeners ev sl = some s) (hc : c ∈ s) :
    listenBody n ev c init sl = n := by
  have hevL : (lookupKey n.listeners ev).isSome = true := event_isSome_of_pair hp
  have hevS : (lookupKey n.notifierState ev).isSome = true := by rw [← hInv.1]; exact hevL
  unfold listenBody
  rw [listenStage1_of_event n ev hevL hevS, listenStage2_of_pair n ev sl init s hp]
  show SlicedNotifier.mk
      (setKey2 n.listeners ev sl (addCb ((lookupKey2 n.listeners ev sl).getD []) c))
      n.notifierState = n
  rw [hp]
  simp only [Option.getD_some]
  rw [show addCb s c = s from by unfold addCb; simp [hc], setKey2_eq_self hp]

theorem applyOp_listen_eq_body (n : SlicedNotifier) (ev : String) (c : Nat) (init : Value)
    (sl : String) (hv : validateEvent ev = true) :
    applyOp n (SOp.listen ev (CallbackArg.func c) init sl) = listenBody n ev c init sl := by
  simp only [applyOp]
  rw [listen_ok n ev c init sl hv]

/-- The operation is a `listen` naming event `ev` (whether or not it passed
validation). -/
def isListenOnEvent (op : SOp) (ev : String) : Bool :=
  match op with
  | SOp.listen e _ _ _ => decide (e = ev)
  | _ => false

/-- The operation is a `listen` naming the pair (`ev`, `sl`) (whether or not
it passed validation). -/
def isListenOnPair (op : SOp) (ev sl : String) : Bool :=
  match op with
  | SOp.listen e _ _ s => decide (e = ev) && decide (s = sl)
  | _ => false

theorem listenApplied_of_isListenOnPair {op : SOp} {ev sl : String}
    (h : isListenOnPair op ev sl = false) : listenApplied op ev sl = false := by
  cases op with
  | listen e cb i s =>
    simp only [isListenOnPair, Bool.and_eq_false_iff] at h
    simp only [listenApplied, Bool.and_eq_false_iff]
    rcases h with h | h
    · exact Or.inl (Or.inl (Or.inl h))
    · exact Or.inl (Or.inl (Or.inr h))
  | notify a b c => rfl
  | unsubscribe a b c => rfl
  | getState a b => rfl

theorem listenAppliedEvent_of_isListenOnEvent {op : SOp} {ev : String}
    (h : isListenOnEvent op ev = false) : listenAppliedEvent op ev = false := by
  cases op with
  | listen e cb i s =>
    simp only [isListenOnEvent] at h
    simp only [listenAppliedEvent, Bool.and_eq_false_iff]
    exact Or.inl (Or.inl h)
  | notify a b c => rfl
  | unsubscribe a b c => rfl
  | getState a b => rfl

/-- The callback reference is not present in the stored set (a non-function
argument is never present). -/
def cbAbsent (cb : CallbackArg) (s : List Nat) : Bool :=
  match cb with
  | CallbackArg.func i => decide (i ∉ s)
  | CallbackArg.value _ => true

theorem deleteCb_of_absent {s : List Nat} {cb : CallbackArg} (h : cbAbsent cb s = true) :
    deleteCb s cb = s := by
  cases cb with
  | value v => rfl
  | func i =>
    simp only [cbAbsent, decide_eq_true_eq] at h
    unfold deleteCb
    refine List.filter_eq_self.mpr fun a ha => ?_
    simp only [ne_eq, decide_eq_true_eq]
    exact fun hh => h (hh ▸ ha)

/-! ### Claim theorems -/

/-- C1: for a key that has a registered callback set (the event in the flat
variant; the event-slice pair in the sliced variant), `notify` stores the
merge-or-replace (`computeStateData`) of the prior stored state with the
payload, and invokes every registered callback with exactly that newly
stored value, not the raw payload; for a plain-record payload the stored
record's fields are the payload's fields on conflicting keys and the prior
record's fields otherwise, and a non-record payload replaces the prior
state wholesale. -/
theorem notify_merge_and_fanout (nS : SlicedNotifier) (nF : FlatNotifier) (ev sl : String)
    (d : Value) (sS sF : List Nat) (hv : validateEvent ev = true)
    (hsS : lookupKey2 nS.listeners ev sl = some sS)
    (hsF : lookupKey nF.listeners ev = some sF) :
    (∃ nS', nS.notify ev d sl = Except.ok (nS',
        sS.map fun cb => (cb, computeStateData (lookupKey2 nS.notifierState ev sl) d))
      ∧ lookupKey2 nS'.notifierState ev sl
          = some (computeStateData (lookupKey2 nS.notifierState ev sl) d))
    ∧ (∃ nF', nF.notify ev d = Except.ok (nF',
        sF.map fun cb => (cb, computeStateData (lookupKey nF.notifierState ev) d))
      ∧ lookupKey nF'.notifierState ev
          = some (computeStateData (lookupKey nF.notifierState ev) d))
    ∧ (checkValidObject d = false → ∀ p, computeStateData p d = d)
    ∧ (∀ ps ds, (ps.map Prod.fst).Nodup → (ds.map Prod.fst).Nodup →
        computeStateData (some (Value.record ps)) (Value.record ds)
            = Value.record (objectFrom (ps ++ ds))
          ∧ ∀ k, lookupKey (objectFrom (ps ++ ds)) k =
              match lookupKey ds k with
              | some w => some w
              | none => lookupKey ps k) := by
  refine ⟨?_, ?_, ?_, ?_⟩
  · refine ⟨_, notify_eq nS ev d sl sS hv hsS, ?_⟩
    show lookupKey2 (setKey2 nS.notifierState ev sl _) ev sl = _
    rw [lookupKey2_setKey2]
    simp
  · refine ⟨_, flat_notify_eq nF ev d sF hv hsF, ?_⟩
    show lookupKey (setKey nF.notifierState ev _) ev = _
    rw [lookupKey_setKey]
    simp
  · intro hd p
    unfold computeStateData
    simp [hd]
  · intro ps ds hndp hndd
    constructor
    · simp [computeStateData, checkValidObject, truthy, spreadFields]
    · exact lookupKey_merge ps ds hndp hndd

/-- C2 counterexample: on a fresh flat registry the key has no stored state
at subscribe time (so nothing "non-trivial" exists), and the default empty
record seeds it; yet `listen` performs the immediate replay and the new
callback is invoked synchronously (with the empty record). -/
theorem listen_replay_empty_state_cex :
    lookupKey FlatNotifier.empty.notifierState "evt" = none
    ∧ FlatNotifier.empty.listen "evt" (CallbackArg.func 0) (Value.record [])
        = Except.ok
            (FlatNotifier.mk [("evt", [0])] [("evt", Value.record [])],
             [(0, Value.record [])]) :=
  ⟨rfl, rfl⟩

/-- C2 (amended): the flat `listen` performs the immediate replay (invoking
the subscribers synchronously) iff the stored state at subscribe time,
after first-listen seeding, is not null — in particular it replays even
when that state is the empty record, because the source's emptiness check
(`Object.keys(state)` without `.length`) is an always-truthy array; the
sliced `listen` never invokes any callback. -/
theorem listen_replay_iff_not_null (nF : FlatNotifier) (nS : SlicedNotifier)
    (ev sl : String) (c : Nat) (init : Value) (hv : validateEvent ev = true) :
    (∃ n' inv, nF.listen ev (CallbackArg.func c) init = Except.ok (n', inv)
      ∧ (inv = [] ↔ (if (lookupKey nF.listeners ev).isNone then some init
          else lookupKey nF.notifierState ev) = some Value.vnull))
    ∧ ∀ n' inv, nS.listen ev (CallbackArg.func c) init sl = Except.ok (n', inv) →
        inv = [] := by
  constructor
  · rw [flat_listen_ok nF ev c init hv, listenPre_st nF ev c init]
    by_cases hrc : flatReplayCond (if (lookupKey nF.listeners ev).isNone then some init
        else lookupKey nF.notifierState ev) = true
    · rw [if_pos hrc]
      have hpl : lookupKey (nF.listenPre ev c init).listeners ev
          = some (addCb ((lookupKey nF.listeners ev).getD []) c) := by
        rw [listenPre_listeners]; simp
      refine ⟨_, _, flat_notify_eq _ ev _ _ hv hpl, ?_⟩
      refine iff_of_false ?_ ?_
      · simp [addCb_ne_nil _ c]
      · intro h
        rw [← flatReplayCond_eq_false_iff] at h
        rw [h] at hrc
        simp at hrc
    · rw [if_neg hrc]
      refine ⟨_, _, rfl, ?_⟩
      exact iff_of_true rfl
        ((flatReplayCond_eq_false_iff _).mp (by simpa using hrc))
  · intro n' inv h
    rw [listen_ok nS ev c init sl hv] at h
    have h₃ : (listenBody nS ev c init sl, ([] : List (Nat × Value))) = (n', inv) := by
      injection h
    exact (congrArg Prod.snd h₃).symm

/-- C3 counterexample: `unsubscribe` with an empty event name raises the
no-listeners-found error (the same throw site as a never-registered event),
which is a distinct error from the invalid-argument errors raised by
`notify` and `listen`. -/
theorem unsubscribe_empty_name_cex :
    SlicedNotifier.empty.unsubscribe "" (CallbackArg.func 0) "main"
        = Except.error (NotifierError.noListenersFound "")
    ∧ FlatNotifier.empty.unsubscribe "" (CallbackArg.func 0)
        = Except.error (NotifierError.noListenersFound "")
    ∧ NotifierError.noListenersFound "" ≠ NotifierError.invalidEventName ""
    ∧ NotifierError.noListenersFound "" ≠ NotifierError.invalidParameters "" :=
  ⟨rfl, rfl, by decide, by decide⟩

/-- C3 (amended): in both variants, for an empty (invalid) event name
`notify` raises the invalid-event-name error and `listen` the
invalid-parameters error, each synchronously and with no registry mutation,
and `listen` raises the invalid-parameters error for a non-callable
callback; `unsubscribe` with an empty event name, however, raises the
no-listeners-found error (shared with the never-registered case), not an
invalid-argument error. -/
theorem invalid_arguments_abort (nS : SlicedNotifier) (nF : FlatNotifier) (ev : String)
    (hv : validateEvent ev = false) (d init : Value) (cb : CallbackArg) (v : Value)
    (sl ev₂ : String) :
    nS.notify ev d sl = Except.error (NotifierError.invalidEventName ev)
    ∧ nS.listen ev cb init sl = Except.error (NotifierError.invalidParameters ev)
    ∧ nS.unsubscribe ev cb sl = Except.error (NotifierError.noListenersFound ev)
    ∧ nF.notify ev d = Except.error (NotifierError.invalidEventName ev)
    ∧ nF.listen ev cb init = Except.error (NotifierError.invalidParameters ev)
    ∧ nF.unsubscribe ev cb = Except.error (NotifierError.noListenersFound ev)
    ∧ nS.listen ev₂ (CallbackArg.value v) init sl
        = Except.error (NotifierError.invalidParameters ev₂)
    ∧ nF.listen ev₂ (CallbackArg.value v) init
        = Except.error (NotifierError.invalidParameters ev₂)
    ∧ applyOp nS (SOp.notify ev d sl) = nS
    ∧ applyOp nS (SOp.listen ev cb init sl) = nS
    ∧ applyOp nS (SOp.unsubscribe ev cb sl) = nS := by
  refine ⟨notify_invalid nS ev d sl hv, listen_invalid_event nS ev cb init sl hv,
    unsubscribe_err nS ev cb sl (Or.inl hv), flat_notify_invalid nF ev d hv,
    flat_listen_invalid_event nF ev cb init hv,
    flat_unsubscribe_err nF ev cb (Or.inl hv),
    listen_invalid_callback nS ev₂ v init sl, flat_listen_invalid_callback nF ev₂ v init,
    ?_, ?_, ?_⟩
  · simp only [applyOp]
    rw [notify_invalid nS ev d sl hv]
  · simp only [applyOp]
    rw [listen_invalid_event nS ev cb init sl hv]
  · simp only [applyOp]
    rw [unsubscribe_err nS ev cb sl (Or.inl hv)]

/-- C4: from the initial empty registry, after any trace of API calls a
(event, slice) pair has a state entry iff it has a callback-set entry, and
both exist iff the trace contains a validated `listen` for that pair; no
operation removes a pair's entries; and the first `listen` for a fresh pair
creates the callback set (holding exactly the new callback) and the state
entry seeded with `initialState` together. -/
theorem registry_pair_invariant (ops : List SOp) (ev sl : String) (c : Nat) (init : Value) :
    ((lookupKey2 (runOps ops).listeners ev sl).isSome
        = (lookupKey2 (runOps ops).notifierState ev sl).isSome)
    ∧ ((lookupKey2 (runOps ops).listeners ev sl).isSome
        = ops.any fun op => listenApplied op ev sl)
    ∧ (∀ op, (lookupKey2 (runOps ops).listeners ev sl).isSome = true →
        (lookupKey2 (applyOp (runOps ops) op).listeners ev sl).isSome = true)
    ∧ (validateEvent ev = true → lookupKey2 (runOps ops).listeners ev sl = none →
        ∀ n' i, (runOps ops).listen ev (CallbackArg.func c) init sl = Except.ok (n', i) →
          lookupKey2 n'.listeners ev sl = some [c]
          ∧ lookupKey2 n'.notifierState ev sl = some init) := by
  have hInv := runOps_regInv ops
  refine ⟨hInv.2 ev sl, runOps_pair_isSome ops ev sl, ?_, ?_⟩
  · intro op h
    rw [applyOp_pair_isSome (runOps ops) op ev sl hInv, h]
    simp
  · intro hv hnone n' i hlisten
    rw [listen_ok (runOps ops) ev c init sl hv] at hlisten
    have h₃ : (listenBody (runOps ops) ev c init sl, ([] : List (Nat × Value)))
        = (n', i) := by injection hlisten
    have hn' : n' = listenBody (runOps ops) ev c init sl := (congrArg Prod.fst h₃).symm
    subst hn'
    have hsnone : lookupKey2 (runOps ops).notifierState ev sl = none := by
      have h := hInv.2 ev sl
      rw [hnone] at h
      exact Option.not_isSome_iff_eq_none.mp (by simp [← h])
    constructor
    · rw [listenBody_pair_listeners (runOps ops) ev c init sl ev sl hInv]
      simp [hnone, addCb]
    · rw [listenBody_pair_state (runOps ops) ev c init sl ev sl hInv]
      simp [hsnone]

/-- C5: in the sliced variant, `notify` with a valid event name on a key
with no registered callback set — the event never registered, or the event
registered but the queried slice never subscribed — raises no error,
creates no entry, and returns the registry entirely unchanged with no
callback invocation. -/
theorem notify_without_listeners_noop (n : SlicedNotifier) (ev sl : String) (d : Value)
    (hv : validateEvent ev = true) (hs : lookupKey2 n.listeners ev sl = none) :
    n.notify ev d sl = Except.ok (n, []) :=
  notify_noop n ev d sl hv hs

/-- C6: `unsubscribe` on a valid event name for which the trace contains no
`listen` raises the no-listeners-found error; whereas on a registered event
with a callback reference not currently in the set (including a missing
slice) it succeeds and leaves the registry unchanged, in both variants. -/
theorem unsubscribe_notfound_vs_absent (ops : List SOp) (ev sl : String)
    (cb : CallbackArg) (hv : validateEvent ev = true)
    (hnl : ∀ op ∈ ops, isListenOnEvent op ev = false) :
    (runOps ops).unsubscribe ev cb sl = Except.error (NotifierError.noListenersFound ev)
    ∧ (∀ nS : SlicedNotifier, ∀ s : List Nat, lookupKey2 nS.listeners ev sl = some s →
        cbAbsent cb s = true → nS.unsubscribe ev cb sl = Except.ok nS)
    ∧ (∀ nS : SlicedNotifier, (lookupKey nS.listeners ev).isSome = true →
        lookupKey2 nS.listeners ev sl = none → nS.unsubscribe ev cb sl = Except.ok nS)
    ∧ (∀ nF : FlatNotifier, ∀ s : List Nat, lookupKey nF.listeners ev = some s →
        cbAbsent cb s = true → nF.unsubscribe ev cb = Except.ok nF) := by
  refine ⟨?_, ?_, ?_, ?_⟩
  · have hany : (ops.any fun op => listenAppliedEvent op ev) = false :=
      List.any_eq_false.mpr fun op hop =>
        by rw [listenAppliedEvent_of_isListenOnEvent (hnl op hop)]; simp
    have hnone : lookupKey (runOps ops).listeners ev = none := by
      have h := runOps_event_isSome ops ev
      rw [hany] at h
      exact Option.not_isSome_iff_eq_none.mp (by simp [h])
    exact unsubscribe_err (runOps ops) ev cb sl (Or.inr hnone)
  · intro nS s hs habs
    rw [unsubscribe_eq nS ev cb sl s hv hs, deleteCb_of_absent habs, setKey2_eq_self hs]
  · intro nS hev hs
    exact unsubscribe_missing_slice nS ev cb sl hv hev hs
  · intro nF s hL habs
    rw [flat_unsubscribe_eq nF ev cb s hv hL, deleteCb_of_absent habs, setKey_eq_self hL]

/-- C7: subscription is idempotent: on any reachable registry, two `listen`
calls with the identical callback yield exactly the registry of the single
call, and a subsequent `notify` on that key invokes the callback exactly
once. -/
theorem listen_idempotent (ops : List SOp) (ev sl : String) (c : Nat)
    (init₁ init₂ d : Value) (hv : validateEvent ev = true) :
    ∀ n₁ i₁, (runOps ops).listen ev (CallbackArg.func c) init₁ sl = Except.ok (n₁, i₁) →
    ∀ n₂ i₂, n₁.listen ev (CallbackArg.func c) init₂ sl = Except.ok (n₂, i₂) →
      n₂ = n₁ ∧ ∃ n₃ inv, n₂.notify ev d sl = Except.ok (n₃, inv)
        ∧ (inv.map Prod.fst).count c = 1 := by
  intro n₁ i₁ h₁ n₂ i₂ h₂
  have hInv := runOps_regInv ops
  rw [listen_ok (runOps ops) ev c init₁ sl hv] at h₁
  injection h₁ with e₁
  have hn₁ : n₁ = listenBody (runOps ops) ev c init₁ sl := (congrArg Prod.fst e₁).symm
  have hInv₁ : RegInv n₁ := hn₁ ▸ regInv_listenBody (runOps ops) ev c init₁ sl hInv
  have hp₁ : lookupKey2 n₁.listeners ev sl
      = some (addCb ((lookupKey2 (runOps ops).listeners ev sl).getD []) c) := by
    rw [hn₁, listenBody_pair_listeners (runOps ops) ev c init₁ sl ev sl hInv,
      if_pos ⟨rfl, rfl⟩]
  have hWF₁ : SetsWF n₁ := by
    rw [hn₁, ← applyOp_listen_eq_body (runOps ops) ev c init₁ sl hv]
    exact setsWF_applyOp (runOps ops) _ (runOps_setsWF ops) hInv
  have hmem : c ∈ addCb ((lookupKey2 (runOps ops).listeners ev sl).getD []) c :=
    mem_addCb_self _ c
  rw [listen_ok n₁ ev c init₂ sl hv] at h₂
  injection h₂ with e₂
  have hn₂ : n₂ = listenBody n₁ ev c init₂ sl := (congrArg Prod.fst e₂).symm
  have hn₂₁ : n₂ = n₁ := by
    rw [hn₂, listenBody_already n₁ ev c init₂ sl _ hInv₁ hp₁ hmem]
  refine ⟨hn₂₁, ?_⟩
  refine ⟨_, _, notify_eq n₂ ev d sl _ hv (by rw [hn₂₁]; exact hp₁), ?_⟩
  have hmap : ((addCb ((lookupKey2 (runOps ops).listeners ev sl).getD []) c).map
      fun cb => (cb, computeStateData (lookupKey2 n₂.notifierState ev sl) d)).map Prod.fst
      = addCb ((lookupKey2 (runOps ops).listeners ev sl).getD []) c := by
    simp [List.map_map, Function.comp_def]
  rw [hmap]
  exact List.count_eq_one_of_mem (hWF₁ ev sl _ hp₁) hmem

/-- C8: `unsubscribe` removes exactly the supplied callback reference from
the key's set: the state map and every other pair's set are unchanged, and
a subsequent `notify` on the key invokes every other still-registered
callback but never the removed one. -/
theorem unsubscribe_removes_exactly (n : SlicedNotifier) (ev sl : String) (c₁ : Nat)
    (d : Value) (s : List Nat) (hv : validateEvent ev = true)
    (hs : lookupKey2 n.listeners ev sl = some s) :
    ∃ n', n.unsubscribe ev (CallbackArg.func c₁) sl = Except.ok n'
      ∧ n'.notifierState = n.notifierState
      ∧ lookupKey2 n'.listeners ev sl = some (s.filter fun c => c ≠ c₁)
      ∧ (∀ ev' sl', ¬ (ev' = ev ∧ sl' = sl) →
          lookupKey2 n'.listeners ev' sl' = lookupKey2 n.listeners ev' sl')
      ∧ ∀ n'' inv, n'.notify ev d sl = Except.ok (n'', inv) →
          (∀ c ∈ s, c ≠ c₁ → c ∈ inv.map Prod.fst) ∧ c₁ ∉ inv.map Prod.fst := by
  have hfilter : lookupKey2 (setKey2 n.listeners ev sl
      (deleteCb s (CallbackArg.func c₁))) ev sl = some (s.filter fun c => c ≠ c₁) := by
    rw [lookupKey2_setKey2]
    simp [deleteCb]
  refine ⟨_, unsubscribe_eq n ev (CallbackArg.func c₁) sl s hv hs, rfl, hfilter, ?_, ?_⟩
  · intro ev' sl' h
    show lookupKey2 (setKey2 n.listeners ev sl _) ev' sl' = _
    rw [lookupKey2_setKey2, if_neg h]
  · intro n'' inv hnot
    rw [notify_eq _ ev d sl (s.filter fun c => c ≠ c₁) hv hfilter] at hnot
    injection hnot with e
    have hinv : inv = (s.filter fun c => c ≠ c₁).map
        (fun cb => (cb, computeStateData (lookupKey2
          ({ n with listeners :=
            (setKey2 n.listeners ev sl (deleteCb s (CallbackArg.func c₁))) } :
            SlicedNotifier).notifierState ev sl) d)) := (congrArg Prod.snd e).symm
    rw [hinv]
    constructor
    · intro c hcmem hcne
      rw [List.map_map]
      simp [List.mem_filter, hcmem, hcne]
    · rw [List.map_map]
      simp [List.mem_filter]

/-- C9: `getState` is a pure lookup: for a pair never named by any `listen`
in the trace it returns `none`, and immediately after a first `listen` on a
pair with no prior state it returns exactly the supplied `initialState`. -/
theorem getState_lookup (ops : List SOp) (ev sl : String) (c : Nat) (init : Value)
    (hv : validateEvent ev = true) :
    ((∀ op ∈ ops, isListenOnPair op ev sl = false) → (runOps ops).getState ev sl = none)
    ∧ ((runOps ops).getState ev sl = none →
        ∀ n' i, (runOps ops).listen ev (CallbackArg.func c) init sl = Except.ok (n', i) →
          n'.getState ev sl = some init) := by
  have hInv := runOps_regInv ops
  have hgs : ∀ m : SlicedNotifier, m.getState ev sl = lookupKey2 m.notifierState ev sl :=
    fun m => rfl
  constructor
  · intro h
    rw [hgs]
    have hany : (ops.any fun op => listenApplied op ev sl) = false :=
      List.any_eq_false.mpr fun op hop => by
        rw [listenApplied_of_isListenOnPair (h op hop)]; simp
    have hS : (lookupKey2 (runOps ops).notifierState ev sl).isSome = false := by
      rw [← hInv.2 ev sl, runOps_pair_isSome ops ev sl, hany]
    exact Option.not_isSome_iff_eq_none.mp (by simp [hS])
  · intro hnone n' i hlisten
    rw [hgs] at hnone
    rw [listen_ok (runOps ops) ev c init sl hv] at hlisten
    injection hlisten with e
    have hn' : n' = listenBody (runOps ops) ev c init sl := (congrArg Prod.fst e).symm
    rw [hn', hgs, listenBody_pair_state (runOps ops) ev c init sl ev sl hInv]
    simp [hnone]

/-- C10: a `listen` on an already-initialized key ignores the new
`initialState` and leaves the stored state map unchanged; in the flat
variant the replay `notify` triggered by the re-listen re-merges the stored
state with itself, and the state map after the call is structurally equal
to the one before. -/
theorem relisten_preserves_state (nS : SlicedNotifier) (nF : FlatNotifier) (ev sl : String)
    (c : Nat) (init₂ : Value) (sS sF : List Nat) (v : Value)
    (hInv : RegInv nS) (hv : validateEvent ev = true)
    (hpS : lookupKey2 nS.listeners ev sl = some sS)
    (hLF : lookupKey nF.listeners ev = some sF)
    (hSF : lookupKey nF.notifierState ev = some v)
    (hnd : recKeysNodup v = true) :
    (∀ n' i, nS.listen ev (CallbackArg.func c) init₂ sl = Except.ok (n', i) →
        n'.notifierState = nS.notifierState)
    ∧ (∀ n' i, nF.listen ev (CallbackArg.func c) init₂ = Except.ok (n', i) →
        n'.notifierState = nF.notifierState) := by
  constructor
  · intro n' i h
    rw [listen_ok nS ev c init₂ sl hv] at h
    injection h with e
    have hn' : n' = listenBody nS ev c init₂ sl := (congrArg Prod.fst e).symm
    rw [hn']
    exact listenBody_state_of_pair nS ev c init₂ sl sS hInv hpS
  · intro n' i h
    rw [flat_listen_ok nF ev c init₂ hv] at h
    have hpre : (nF.listenPre ev c init₂).notifierState = nF.notifierState :=
      listenPre_state_old nF ev c init₂ (by rw [hLF]; rfl)
    have hst : lookupKey (nF.listenPre ev c init₂).notifierState ev = some v := by
      rw [hpre, hSF]
    rw [hst] at h
    by_cases hnull : v = Value.vnull
    · subst hnull
      have hrc : flatReplayCond (some Value.vnull) = false :=
        (flatReplayCond_eq_false_iff _).mpr rfl
      rw [if_neg (by simp [hrc])] at h
      injection h with e
      have hn' : n' = nF.listenPre ev c init₂ := (congrArg Prod.fst e).symm
      rw [hn', hpre]
    · have hrc : flatReplayCond (some v) = true := by
        cases hb : flatReplayCond (some v) with
        | false =>
          exact absurd ((flatReplayCond_eq_false_iff _).mp hb)
            fun hh => hnull (by injection hh)
        | true => rfl
      rw [if_pos hrc] at h
      simp only [Option.getD_some] at h
      have hplF : lookupKey (nF.listenPre ev c init₂).listeners ev
          = some (addCb ((lookupKey nF.listeners ev).getD []) c) := by
        rw [listenPre_listeners]; simp
      rw [flat_notify_eq (nF.listenPre ev c init₂) ev v _ hv hplF] at h
      injection h with e
      have hn' : n'.notifierState = setKey (nF.listenPre ev c init₂).notifierState ev
          (computeStateData (lookupKey (nF.listenPre ev c init₂).notifierState ev) v) :=
        congrArg (fun p => FlatNotifier.notifierState p.1) e.symm
      rw [hn', hst, computeStateData_self v hnd, hpre, setKey_eq_self hSF]

/-! ### Concrete sample registries for witnesses -/

/-- A sliced registry with one subscribed pair and a record state. -/
def sampleSliced : SlicedNotifier :=
  ⟨[("evt", [("main", [0])])], [("evt", [("main", Value.record [("a", Value.num 1)])])]⟩

/-- A flat registry with one subscribed event and a numeric state. -/
def sampleFlat : FlatNotifier :=
  ⟨[("evt", [1])], [("evt", Value.num 5)]⟩

/-- A sliced registry whose pair holds two callbacks. -/
def samplePair : SlicedNotifier :=
  ⟨[("evt", [("main", [0, 1])])], [("evt", [("main", Value.num 7)])]⟩

/-! ### Witnesses -/

theorem notify_merge_and_fanout_witness :
    ∃ nS', sampleSliced.notify "evt" (Value.record [("b", Value.num 2)]) "main"
      = Except.ok (nS', [0].map fun cb => (cb,
          computeStateData (lookupKey2 sampleSliced.notifierState "evt" "main")
            (Value.record [("b", Value.num 2)])))
      ∧ lookupKey2 nS'.notifierState "evt" "main"
          = some (computeStateData (lookupKey2 sampleSliced.notifierState "evt" "main")
              (Value.record [("b", Value.num 2)])) :=
  (notify_merge_and_fanout sampleSliced sampleFlat "evt" "main"
    (Value.record [("b", Value.num 2)]) [0] [1] (by decide) rfl rfl).1

theorem listen_replay_iff_not_null_witness :
    (∃ n' inv, FlatNotifier.empty.listen "evt" (CallbackArg.func 0) (Value.num 7)
        = Except.ok (n', inv)
      ∧ (inv = [] ↔ (if (lookupKey FlatNotifier.empty.listeners "evt").isNone
          then some (Value.num 7) else lookupKey FlatNotifier.empty.notifierState "evt")
          = some Value.vnull))
    ∧ ∀ n' inv, SlicedNotifier.empty.listen "evt" (CallbackArg.func 0) (Value.num 7) "main"
        = Except.ok (n', inv) → inv = [] :=
  listen_replay_iff_not_null FlatNotifier.empty SlicedNotifier.empty "evt" "main" 0
    (Value.num 7) (by decide)

theorem invalid_arguments_abort_witness :
    SlicedNotifier.empty.notify "" (Value.num 1) "main"
      = Except.error (NotifierError.invalidEventName "") :=
  (invalid_arguments_abort SlicedNotifier.empty FlatNotifier.empty "" (by decide)
    (Value.num 1) (Value.num 2) (CallbackArg.func 0) (Value.num 3) "main" "evt").1

theorem registry_pair_invariant_witness :
    lookupKey2 (SlicedNotifier.mk [("evt", [("main", [0])])]
        [("evt", [("main", Value.num 7)])]).listeners "evt" "main" = some [0]
    ∧ lookupKey2 (SlicedNotifier.mk [("evt", [("main", [0])])]
        [("evt", [("main", Value.num 7)])]).notifierState "evt" "main"
        = some (Value.num 7) :=
  (registry_pair_invariant [] "evt" "main" 0 (Value.num 7)).2.2.2 (by decide) rfl
    (SlicedNotifier.mk [("evt", [("main", [0])])] [("evt", [("main", Value.num 7)])]) [] rfl

theorem notify_without_listeners_noop_witness :
    SlicedNotifier.empty.notify "evt" (Value.num 1) "main"
      = Except.ok (SlicedNotifier.empty, []) :=
  notify_without_listeners_noop SlicedNotifier.empty "evt" "main" (Value.num 1)
    (by decide) rfl

theorem unsubscribe_notfound_vs_absent_witness :
    (runOps []).unsubscribe "evt" (CallbackArg.func 0) "main"
      = Except.error (NotifierError.noListenersFound "evt")
    ∧ sampleSliced.unsubscribe "evt" (CallbackArg.func 9) "main"
      = Except.ok sampleSliced :=
  ⟨(unsubscribe_notfound_vs_absent [] "evt" "main" (CallbackArg.func 0) (by decide)
      fun op hop => absurd hop (List.not_mem_nil op)).1,
   (unsubscribe_notfound_vs_absent [] "evt" "main" (CallbackArg.func 9) (by decide)
      fun op hop => absurd hop (List.not_mem_nil op)).2.1 sampleSliced [0] rfl (by decide)⟩

theorem listen_idempotent_witness :
    (SlicedNotifier.mk [("evt", [("main", [0])])] [("evt", [("main", Value.num 7)])])
        = SlicedNotifier.mk [("evt", [("main", [0])])] [("evt", [("main", Value.num 7)])]
    ∧ ∃ n₃ inv, (SlicedNotifier.mk [("evt", [("main", [0])])]
        [("evt", [("main", Value.num 7)])]).notify "evt" (Value.num 8) "main"
        = Except.ok (n₃, inv) ∧ (inv.map Prod.fst).count 0 = 1 :=
  listen_idempotent [] "evt" "main" 0 (Value.num 7) (Value.num 7) (Value.num 8) (by decide)
    (SlicedNotifier.mk [("evt", [("main", [0])])] [("evt", [("main", Value.num 7)])]) [] rfl
    (SlicedNotifier.mk [("evt", [("main", [0])])] [("evt", [("main", Value.num 7)])]) [] rfl

theorem unsubscribe_removes_exactly_witness :
    ∃ n', samplePair.unsubscribe "evt" (CallbackArg.func 0) "main" = Except.ok n'
      ∧ n'.notifierState = samplePair.notifierState
      ∧ lookupKey2 n'.listeners "evt" "main" = some ([0, 1].filter fun c => c ≠ 0)
      ∧ (∀ ev' sl', ¬ (ev' = "evt" ∧ sl' = "main") →
          lookupKey2 n'.listeners ev' sl' = lookupKey2 samplePair.listeners ev' sl')
      ∧ ∀ n'' inv, n'.notify "evt" (Value.num 8) "main" = Except.ok (n'', inv) →
          (∀ c ∈ [0, 1], c ≠ 0 → c ∈ inv.map Prod.fst) ∧ 0 ∉ inv.map Prod.fst :=
  unsubscribe_removes_exactly samplePair "evt" "main" 0 (Value.num 8) [0, 1]
    (by decide) rfl

theorem getState_lookup_witness :
    (SlicedNotifier.mk [("evt", [("main", [0])])]
        [("evt", [("main", Value.num 7)])]).getState "evt" "main" = some (Value.num 7) :=
  (getState_lookup [] "evt" "main" 0 (Value.num 7) (by decide)).2 rfl
    (SlicedNotifier.mk [("evt", [("main", [0])])] [("evt", [("main", Value.num 7)])]) [] rfl

theorem relisten_preserves_state_witness :
    (∀ n' i, (runOps [SOp.listen "evt" (CallbackArg.func 0)
          (Value.record [("a", Value.num 1)]) "main"]).listen "evt"
          (CallbackArg.func 5) (Value.num 9) "main" = Except.ok (n', i) →
        n'.notifierState = (runOps [SOp.listen "evt" (CallbackArg.func 0)
          (Value.record [("a", Value.num 1)]) "main"]).notifierState)
    ∧ (∀ n' i, sampleFlat.listen "evt" (CallbackArg.func 5) (Value.num 9)
        = Except.ok (n', i) → n'.notifierState = sampleFlat.notifierState) :=
  relisten_preserves_state
    (runOps [SOp.listen "evt" (CallbackArg.func 0) (Value.record [("a", Value.num 1)]) "main"])
    sampleFlat "evt" "main" 5 (Value.num 9) [0] [1] (Value.num 5)
    (runOps_regInv _) (by decide) rfl rfl rfl (by decide)

end TestState
